import Mathlib

/-!
fuji-cam-wifi-tool: message framing and the interactive command loop.

Shallow embedding of `src/lib/include/message.hpp` (message catalogue, static
messages, message builders) and of the command handlers of
`src/tool/src/main.cpp` (set-to-target loops, enumerated property commands,
recording commands).

Conventions
* `uint8_t`, `uint16_t`, `uint32_t` values are natural numbers; where the C++
  code can wrap, the reduction modulo `2 ^ w` is written out.
* Functions that are declared in headers but defined outside the two embedded
  files (`generate_message_id`, `update_setting`, `current_settings`,
  `start_record`, `stop_record`, `is_known_property_value`, `ss_to_microsec`)
  are parameters of the embedding.
* A failed `assert` aborts the program: the embedded function returns `none`.
-/

namespace fcwt

/-! ## message.hpp -/

/-- Enumeration `message_type` of message.hpp (an `enum class` over `uint16_t`). -/
inductive message_type
  | hello
  | start
  | stop
  | image_info_by_index
  | thumbnail_by_index
  | shutter
  | single_part
  | two_part
  | full_image
  | camera_remote
  | start_record
  | stop_record
  | camera_last_image
  | focus_point
  | focus_unlock
  | camera_capabilities
  | shutter_speed
  | aperture
  | exposure_correction
  deriving DecidableEq, Repr

/-- Enumerator values of `message_type`, as written in message.hpp. -/
def message_type.code : message_type → Nat
  | .hello => 0x0000
  | .start => 0x1002
  | .stop => 0x1003
  | .image_info_by_index => 0x1008
  | .thumbnail_by_index => 0x100a
  | .shutter => 0x100e
  | .single_part => 0x1015
  | .two_part => 0x1016
  | .full_image => 0x101b
  | .camera_remote => 0x101c
  | .start_record => 0x9020
  | .stop_record => 0x9021
  | .camera_last_image => 0x9022
  | .focus_point => 0x9026
  | .focus_unlock => 0x9027
  | .camera_capabilities => 0x902b
  | .shutter_speed => 0x902c
  | .aperture => 0x902d
  | .exposure_correction => 0x902e

/-- Every enumerator of `message_type`, in declaration order. -/
def message_type.catalogue : List message_type :=
  [.hello, .start, .stop, .image_info_by_index, .thumbnail_by_index, .shutter,
   .single_part, .two_part, .full_image, .camera_remote, .start_record,
   .stop_record, .camera_last_image, .focus_point, .focus_unlock,
   .camera_capabilities, .shutter_speed, .aperture, .exposure_correction]

/-- Struct `static_message<PayloadBytes>`: the bases `message_header`
(`uint16_t index`, `message_type type`), `message_id` (`uint32_t id`) and
`static_message_data<PayloadBytes>` (`std::array<uint8_t, PayloadBytes> data`),
in that order. -/
structure static_message (PayloadBytes : Nat) where
  index : Nat
  type : message_type
  id : Nat
  data : List Nat

/-- Values that the C++ type can hold: `index` is a `uint16_t`, `id` a
`uint32_t`, `data` an array of exactly `PayloadBytes` values of type `uint8_t`. -/
def static_message.wf {N : Nat} (m : static_message N) : Prop :=
  m.index < 65536 ∧ m.id < 4294967296 ∧ m.data.length = N ∧ ∀ b ∈ m.data, b < 256

/-- Value of `sizeof(message_header)`: two 16-bit members. -/
def sizeof_message_header : Nat := 2 + 2

/-- Value of `sizeof(message_id)`: one 32-bit member. -/
def sizeof_message_id : Nat := 4

/-- Member `static_message::size()`. -/
def static_message.size {N : Nat} (_m : static_message N) : Nat :=
  sizeof_message_header + sizeof_message_id + N

/-- Object representation of an unsigned scalar of `w` bytes on the
little-endian targets the tool is built for: least significant byte first. -/
def object_bytes : Nat → Nat → List Nat
  | 0, _ => []
  | w + 1, x => x % 256 :: object_bytes w (x / 256)

/-- Bytes handed to the socket by `fuji_send(sockfd, &msg, msg.size())` and
`fuji_message(sockfd, msg.id, &msg, msg.size())`: the first `size()` bytes of the
object, whose base subobjects lie in declaration order at offsets 0, 4 and 8. -/
def wire_bytes {N : Nat} (m : static_message N) : List Nat :=
  (object_bytes 2 m.index ++ object_bytes 2 m.type.code ++ object_bytes 4 m.id
    ++ m.data).take m.size

/-- Modelled from the spec: the catalogue lookup behind `decode_header`, which is
not part of the embedded sources; a code outside the catalogue is reported as
`none`. -/
def message_type.of_code (c : Nat) : Option message_type :=
  message_type.catalogue.find? (fun t => t.code == c)

/-- Modelled from the spec: `decode_header(bytes) -> {index, type}` reads the fixed
4-byte little-endian prefix of a buffer and reports a decode failure on short
input or on an unknown type code. It is not part of the embedded sources. -/
def decode_header : List Nat → Option (Nat × message_type)
  | b0 :: b1 :: b2 :: b3 :: _ =>
    (message_type.of_code (b2 + 256 * b3)).map (fun t => (b0 + 256 * b1, t))
  | _ => none

/-- Modelled from the spec: the 4-byte little-endian correlation id that follows
the header prefix; `none` on short input. It is not part of the embedded
sources. -/
def decode_id : List Nat → Option Nat
  | _ :: _ :: _ :: _ :: b4 :: b5 :: b6 :: b7 :: _ =>
    some (b4 + 256 * b5 + 65536 * b6 + 16777216 * b7)
  | _ => none

/-- Function template `make_static_message(type, data)`. The default member
initialiser of `message_header` leaves `index = 1`; `generate_message_id` is
defined outside the embedded sources and is passed in as a state-passing
generator `gen` over generator states `γ`. -/
def make_static_message {γ : Type} (gen : γ → Nat × γ) (N : Nat) (g : γ)
    (type : message_type) (data : List Nat) : static_message N × γ :=
  let msg : static_message N := ⟨1, type, 0, []⟩
  let msg : static_message N := ⟨msg.index, type, msg.id, msg.data⟩
  let msg : static_message N := ⟨msg.index, msg.type, msg.id, data⟩
  let r := gen g
  (⟨msg.index, msg.type, r.1, msg.data⟩, r.2)

/-- Function template `make_static_message_followup(prevMsg, data)`. The
`assert(prevMsg.type == message_type::two_part)` aborts when it fails (`none`);
`prevMsg.index + 1` is stored into a `uint16_t`. -/
def make_static_message_followup {P : Nat} (N : Nat) (prevMsg : static_message P)
    (data : List Nat) : Option (static_message N) :=
  let msg : static_message N := ⟨1, message_type.two_part, 0, []⟩
  if prevMsg.type = message_type.two_part then
    let msg : static_message N := ⟨msg.index, msg.type, msg.id, data⟩
    let msg : static_message N := ⟨msg.index, msg.type, prevMsg.id, msg.data⟩
    some ⟨(prevMsg.index + 1) % 65536, msg.type, msg.id, msg.data⟩
  else
    none

/-- The canned `status_request_message` of message.hpp. -/
def status_request_message : static_message 4 :=
  ⟨1, message_type.single_part, 0, [0x12, 0xd2, 0x00, 0x00]⟩

/-- A two-part message whose index is the largest `uint16_t`. -/
def last_index_message : static_message 0 :=
  ⟨65535, message_type.two_part, 7, []⟩

/-! ## main.cpp: the environment of the command loop -/

/-- Indices into `current_properties::values` that main.cpp uses (the enumeration
itself is declared in commands.hpp). -/
inductive property
  | property_iso
  | property_aperture
  | property_shutter_speed
  | property_white_balance
  | property_film_simulation
  | property_flash
  | property_self_timer
  | property_exposure_compensation
  deriving DecidableEq, Repr

/-- Struct `current_properties`: main.cpp reads only `values[...]`, an array of
`uint32_t` indexed by property. -/
structure current_properties where
  values : property → Nat

/-- Step commands for the aperture, as named in main.cpp. -/
inductive fnumber_update_direction
  | fnumber_increment
  | fnumber_decrement
  deriving DecidableEq, Repr

/-- Step commands for the shutter speed, as named in main.cpp. -/
inductive ss_update_direction
  | ss_increment
  | ss_decrement
  deriving DecidableEq, Repr

/-- Step commands for the exposure compensation, as named in main.cpp. -/
inductive exp_update_direction
  | exp_increment
  | exp_decrement
  deriving DecidableEq, Repr

/-- Struct `auto_focus_point`: main.cpp assigns the members `x` and `y`. -/
structure auto_focus_point where
  x : Int
  y : Int
  deriving DecidableEq, Repr

/-- Argument of one call of the overloaded `update_setting(sockfd, ...)`. -/
inductive setting_update
  | value (p : property) (v : Nat)
  | fnumber (d : fnumber_update_direction)
  | ss (d : ss_update_direction)
  | exp (d : exp_update_direction)
  | focus (pt : auto_focus_point)
  deriving DecidableEq, Repr

/-- The library calls of main.cpp that talk to the camera. They are defined
outside the embedded sources, so each is a state transformer over an arbitrary
state `σ` of everything behind the socket. `current_settings` receives the old
snapshot (it takes `settings` by reference) and returns success and the snapshot
it leaves behind; `start_record` returns the recording id, 0 on failure. -/
structure camera (σ : Type) where
  update_setting : setting_update → σ → Bool × σ
  unlock_focus : σ → Bool × σ
  current_settings : current_properties → σ → Bool × current_properties × σ
  start_record : σ → Nat × σ
  stop_record : Nat → σ → Bool × σ

/-- One call into the library, in the order the calls are made; a settings fetch
is recorded with its outcome. -/
inductive exchange
  | update_setting (u : setting_update)
  | unlock_focus
  | current_settings (ok : Bool) (s : current_properties)
  | start_record
  | stop_record (id : Nat)

/-- Tells whether the exchange is a relative step command (`update_setting` with
a direction). -/
def exchange.is_step : exchange → Bool
  | .update_setting (.fnumber _) => true
  | .update_setting (.ss _) => true
  | .update_setting (.exp _) => true
  | _ => false

/-- Tells whether the exchange is a settings fetch. -/
def exchange.is_fetch : exchange → Bool
  | .current_settings _ _ => true
  | _ => false

/-- Number of relative step commands in a list of exchanges. -/
def step_count (l : List exchange) : Nat := l.countP exchange.is_step

/-- State of `main`: everything behind the socket (`world`), the exchanges made so
far (`sent`), and the locals `settings` and `cur_record_id`. -/
structure main_state (σ : Type) where
  world : σ
  sent : List exchange
  settings : current_properties
  cur_record_id : Nat

/-- Call `update_setting(sockfd, u)`. -/
def call_update_setting {σ : Type} (cam : camera σ) (u : setting_update)
    (st : main_state σ) : Bool × main_state σ :=
  let r := cam.update_setting u st.world
  (r.1, ⟨r.2, st.sent ++ [exchange.update_setting u], st.settings, st.cur_record_id⟩)

/-- Call `current_settings(sockfd, settings)`. -/
def call_current_settings {σ : Type} (cam : camera σ)
    (st : main_state σ) : Bool × main_state σ :=
  let r := cam.current_settings st.settings st.world
  (r.1, ⟨r.2.2, st.sent ++ [exchange.current_settings r.1 r.2.1], r.2.1, st.cur_record_id⟩)

/-! ## main.cpp: set-to-target commands

The handlers take the parsed argument (`none` when the line has no usable
argument, so that the handler does nothing). A `do ... while` loop is run for at
most `fuel` iterations; the first component of the result tells whether the
command ran to its end within them. -/

/-- Direction chosen by `aperture < settings.values[property_aperture] ?
fnumber_decrement : fnumber_increment`. -/
def fnumber_direction (aperture current : Nat) : fnumber_update_direction :=
  if aperture < current then .fnumber_decrement else .fnumber_increment

/-- The `do ... while` loop of `case command::set_aperture`. -/
def main.set_aperture_loop {σ : Type} (cam : camera σ) (aperture : Nat)
    (direction : fnumber_update_direction) : Nat → main_state σ → Bool × main_state σ
  | 0, st => (false, st)
  | fuel + 1, st =>
    let last_aperture := st.settings.values .property_aperture
    let u := call_update_setting cam (.fnumber direction) st
    if u.1 = false then (true, u.2)
    else
      let f := call_current_settings cam u.2
      if f.1 = true
          ∧ f.2.settings.values .property_aperture ≠ last_aperture
          ∧ aperture ≠ f.2.settings.values .property_aperture
          ∧ direction = fnumber_direction aperture (f.2.settings.values .property_aperture)
      then main.set_aperture_loop cam aperture direction fuel f.2
      else (true, f.2)

/-- Handler `case command::set_aperture`; `arg` is the `uint32_t aperture` computed
from the second word of the line. -/
def main.set_aperture {σ : Type} (cam : camera σ) (fuel : Nat) (arg : Option Nat)
    (st : main_state σ) : Bool × main_state σ :=
  match arg with
  | none => (true, st)
  | some aperture =>
    if aperture > 0 ∧ aperture < 6400 then
      let f := call_current_settings cam st
      if f.1 = true ∧ f.2.settings.values .property_aperture > 0
          ∧ aperture ≠ f.2.settings.values .property_aperture then
        main.set_aperture_loop cam aperture
          (fnumber_direction aperture (f.2.settings.values .property_aperture)) fuel f.2
      else (true, f.2)
    else (true, st)

/-- Direction chosen by `new_speed < ss_to_microsec(...) ? ss_increment :
ss_decrement`. -/
def ss_direction (new_speed : ℚ) (current_microsec : Nat) : ss_update_direction :=
  if new_speed < (current_microsec : ℚ) then .ss_increment else .ss_decrement

/-- The `do ... while` loop of `case command::set_shutter_speed`. The `double
new_speed` is a rational number (a finite double), compared exactly with the
`uint64_t` results of `ss_to_microsec`, which is a parameter. -/
def main.set_shutter_speed_loop {σ : Type} (cam : camera σ) (ss_to_microsec : Nat → Nat)
    (new_speed : ℚ) (direction : ss_update_direction) :
    Nat → main_state σ → Bool × main_state σ
  | 0, st => (false, st)
  | fuel + 1, st =>
    let last_speed := ss_to_microsec (st.settings.values .property_shutter_speed)
    let u := call_update_setting cam (.ss direction) st
    if u.1 = false then (true, u.2)
    else
      let f := call_current_settings cam u.2
      if f.1 = true
          ∧ ss_to_microsec (f.2.settings.values .property_shutter_speed) ≠ last_speed
          ∧ new_speed ≠ (ss_to_microsec (f.2.settings.values .property_shutter_speed) : ℚ)
          ∧ direction
              = ss_direction new_speed
                  (ss_to_microsec (f.2.settings.values .property_shutter_speed))
      then main.set_shutter_speed_loop cam ss_to_microsec new_speed direction fuel f.2
      else (true, f.2)

/-- Handler `case command::set_shutter_speed`; `arg` is `new_speed` when the line
has a second word that `sscanf` could read (`res > 0`). -/
def main.set_shutter_speed {σ : Type} (cam : camera σ) (ss_to_microsec : Nat → Nat)
    (fuel : Nat) (arg : Option ℚ) (st : main_state σ) : Bool × main_state σ :=
  match arg with
  | none => (true, st)
  | some new_speed =>
    let f := call_current_settings cam st
    if f.1 = true ∧ f.2.settings.values .property_shutter_speed > 0
        ∧ new_speed ≠ (ss_to_microsec (f.2.settings.values .property_shutter_speed) : ℚ) then
      main.set_shutter_speed_loop cam ss_to_microsec new_speed
        (ss_direction new_speed
          (ss_to_microsec (f.2.settings.values .property_shutter_speed))) fuel f.2
    else (true, f.2)

/-- Direction chosen by `exp < settings.values[property_exposure_compensation] ?
exp_decrement : exp_increment`. -/
def exp_direction (exp current : Nat) : exp_update_direction :=
  if exp < current then .exp_decrement else .exp_increment

/-- The `do ... while` loop of `case command::set_exposure_compensation`. -/
def main.set_exposure_compensation_loop {σ : Type} (cam : camera σ) (exp : Nat)
    (direction : exp_update_direction) : Nat → main_state σ → Bool × main_state σ
  | 0, st => (false, st)
  | fuel + 1, st =>
    let last_exp := st.settings.values .property_exposure_compensation
    let u := call_update_setting cam (.exp direction) st
    if u.1 = false then (true, u.2)
    else
      let f := call_current_settings cam u.2
      if f.1 = true
          ∧ f.2.settings.values .property_exposure_compensation ≠ last_exp
          ∧ exp ≠ f.2.settings.values .property_exposure_compensation
          ∧ direction
              = exp_direction exp (f.2.settings.values .property_exposure_compensation)
      then main.set_exposure_compensation_loop cam exp direction fuel f.2
      else (true, f.2)

/-- Handler `case command::set_exposure_compensation`; `arg` is the `uint32_t exp`
computed from the second word of the line. -/
def main.set_exposure_compensation {σ : Type} (cam : camera σ) (fuel : Nat)
    (arg : Option Nat) (st : main_state σ) : Bool × main_state σ :=
  match arg with
  | none => (true, st)
  | some exp =>
    let f := call_current_settings cam st
    if f.1 = true ∧ exp ≠ f.2.settings.values .property_exposure_compensation then
      main.set_exposure_compensation_loop cam exp
        (exp_direction exp (f.2.settings.values .property_exposure_compensation)) fuel f.2
    else (true, f.2)

/-! ## main.cpp: enumerated property commands and recording commands -/

/-- Conversion `uint32_t const value = std::stoi(...)` of an `int`. -/
def to_uint32 (i : Int) : Nat := (i % 4294967296).toNat

/-- Common body of the handlers `white_balance`, `film_simulation`, `flash` and
`timer`, which differ in the property only:
`is_known_property_value(p, value) && update_setting(sockfd, p, value)`, then a
settings fetch on success. `is_known_property_value` is a parameter. -/
def main.enumerated_property {σ : Type} (cam : camera σ)
    (is_known_property_value : property → Nat → Bool) (p : property)
    (arg : Option Int) (st : main_state σ) : main_state σ :=
  match arg with
  | none => st
  | some i =>
    let value := to_uint32 i
    if is_known_property_value p value = true then
      let u := call_update_setting cam (.value p value) st
      if u.1 = true then (call_current_settings cam u.2).2 else u.2
    else st

/-- Handler `case command::white_balance`. -/
def main.white_balance {σ : Type} (cam : camera σ)
    (is_known_property_value : property → Nat → Bool) (arg : Option Int)
    (st : main_state σ) : main_state σ :=
  main.enumerated_property cam is_known_property_value .property_white_balance arg st

/-- Handler `case command::film_simulation`. -/
def main.film_simulation {σ : Type} (cam : camera σ)
    (is_known_property_value : property → Nat → Bool) (arg : Option Int)
    (st : main_state σ) : main_state σ :=
  main.enumerated_property cam is_known_property_value .property_film_simulation arg st

/-- Handler `case command::flash`. -/
def main.flash {σ : Type} (cam : camera σ)
    (is_known_property_value : property → Nat → Bool) (arg : Option Int)
    (st : main_state σ) : main_state σ :=
  main.enumerated_property cam is_known_property_value .property_flash arg st

/-- Handler `case command::timer`. -/
def main.timer {σ : Type} (cam : camera σ)
    (is_known_property_value : property → Nat → Bool) (arg : Option Int)
    (st : main_state σ) : main_state σ :=
  main.enumerated_property cam is_known_property_value .property_self_timer arg st

/-- Handler `case command::start_record`. -/
def main.start_record {σ : Type} (cam : camera σ) (st : main_state σ) : main_state σ :=
  if st.cur_record_id ≠ 0 then st
  else
    let r := cam.start_record st.world
    let st1 : main_state σ := ⟨r.2, st.sent ++ [exchange.start_record], st.settings, r.1⟩
    if st1.cur_record_id ≠ 0 then (call_current_settings cam st1).2 else st1

/-- Handler `case command::stop_record`. -/
def main.stop_record {σ : Type} (cam : camera σ) (st : main_state σ) : main_state σ :=
  if st.cur_record_id = 0 then st
  else
    let r := cam.stop_record st.cur_record_id st.world
    let st1 : main_state σ :=
      ⟨r.2, st.sent ++ [exchange.stop_record st.cur_record_id], st.settings,
        st.cur_record_id⟩
    if r.1 = true then
      (call_current_settings cam ⟨st1.world, st1.sent, st1.settings, 0⟩).2
    else st1

/-! ## Simulated cameras -/

/-- Simulated camera whose whole state is the value it reports for property `p`.
Every `update_setting` succeeds and moves the value by `move`; every settings
fetch succeeds and stores the value into the snapshot; recording always
succeeds with id 1234. -/
def sim_camera (p : property) (move : setting_update → Nat → Nat) : camera Nat where
  update_setting := fun u v => (true, move u v)
  unlock_focus := fun v => (true, v)
  current_settings := fun s v =>
    (true, ⟨fun q => if q = p then v else s.values q⟩, v)
  start_record := fun v => (1234, v)
  stop_record := fun _ v => (true, v)

/-- Aperture movement of a camera that moves by `d` per step command and clamps
the result to `[lo, hi]`. -/
def clamped_move (d lo hi : Nat) : setting_update → Nat → Nat
  | .fnumber .fnumber_increment, v => max lo (min (v + d) hi)
  | .fnumber .fnumber_decrement, v => max lo (min (v - d) hi)
  | _, v => v

/-- Aperture movement of a camera that moves by `d` per step command and clamps
the result below at the floor `f`. -/
def floor_move (d f : Nat) : setting_update → Nat → Nat
  | .fnumber .fnumber_increment, v => max f (v + d)
  | .fnumber .fnumber_decrement, v => max f (v - d)
  | _, v => v

/-- Simulated camera that moves the aperture by `d`, clamped to `[lo, hi]`. -/
def clamped_camera (d lo hi : Nat) : camera Nat :=
  sim_camera .property_aperture (clamped_move d lo hi)

/-- Simulated camera that moves the aperture by `d`, clamped below at `f`. -/
def floor_camera (d f : Nat) : camera Nat :=
  sim_camera .property_aperture (floor_move d f)

/-- Simulated camera that accepts every command and never changes the value it
reports for property `p`. -/
def ignoring_camera (p : property) : camera Nat :=
  sim_camera p (fun _ v => v)

/-- State of `main` before the first command, facing a simulated camera that
reports the value `v`: nothing sent, an all-zero snapshot, no recording. -/
def initial_state (v : Nat) : main_state Nat :=
  ⟨v, [], ⟨fun _ => 0⟩, 0⟩

/-- State of `main` after one successful aperture step command and the settings
fetch that follows it, facing a simulated aperture camera. -/
def sim_after_step (move : setting_update → Nat → Nat) (dir : fnumber_update_direction)
    (st : main_state Nat) : main_state Nat :=
  (call_current_settings (sim_camera .property_aperture move)
    (call_update_setting (sim_camera .property_aperture move) (.fnumber dir) st).2).2

/-- Number of step commands that the aperture loop sends to a camera with floor
`f` and step `d` when it starts at `c` and the target lies below the floor: the
steps that move the value, and the one that no longer does. -/
def floor_steps (d f c : Nat) : Nat := (c - f + d - 1) / d + 1

/-- The exchanges made between the state `st` and a later state `st1`. -/
def new_exchanges {σ : Type} (st st1 : main_state σ) : List exchange :=
  st1.sent.drop st.sent.length

/-- Value that the first settings fetch of a command reports for property `p`,
when the command starts in state `st`. -/
def first_fetch_value {σ : Type} (cam : camera σ) (st : main_state σ) (p : property) : Nat :=
  (cam.current_settings st.settings st.world).2.1.values p

/-! ## message.hpp: byte arrays -/

/-- Overload `make_byte_array(uint32_t x)`: the four casts
`static_cast<uint8_t>(x >> k)` for `k = 0, 8, 16, 24`. -/
def make_byte_array_u32 (x : Nat) : List Nat :=
  [x % 256, (x >>> 8) % 256, (x >>> 16) % 256, (x >>> 24) % 256]

/-- Overload `make_byte_array(uint16_t x)`: the two casts
`static_cast<uint8_t>(x)` and `static_cast<uint8_t>(x >> 8)`. -/
def make_byte_array_u16 (x : Nat) : List Nat :=
  [x % 256, (x >>> 8) % 256]

/-! ## main.cpp: the recording commands in sequence -/

/-- The two recording commands of the command loop. -/
inductive record_command
  | start_record
  | stop_record
  deriving DecidableEq, Repr

/-- One pass of the `switch` of `main` for a recording command. -/
def main.dispatch_record {σ : Type} (cam : camera σ) (c : record_command)
    (st : main_state σ) : main_state σ :=
  match c with
  | .start_record => main.start_record cam st
  | .stop_record => main.stop_record cam st

/-- The `while (getline(line))` loop of `main` on a sequence of recording
commands. -/
def main.run_record_commands {σ : Type} (cam : camera σ) :
    List record_command → main_state σ → main_state σ
  | [], st => st
  | c :: cs, st => main.run_record_commands cam cs (main.dispatch_record cam c st)

/-- A camera observed at its interface: next to the state of `cam` it keeps the
list of recording sessions that are open, adding the id of every start exchange
that succeeds (non-zero id) and removing the id of every stop exchange that
succeeds. The camera itself behaves as `cam`. -/
def session_spy {σ : Type} (cam : camera σ) : camera (σ × List Nat) where
  update_setting := fun u w => ((cam.update_setting u w.1).1, (cam.update_setting u w.1).2, w.2)
  unlock_focus := fun w => ((cam.unlock_focus w.1).1, (cam.unlock_focus w.1).2, w.2)
  current_settings := fun s w =>
    ((cam.current_settings s w.1).1, (cam.current_settings s w.1).2.1,
      (cam.current_settings s w.1).2.2, w.2)
  start_record := fun w =>
    ((cam.start_record w.1).1, (cam.start_record w.1).2,
      if (cam.start_record w.1).1 ≠ 0 then (cam.start_record w.1).1 :: w.2 else w.2)
  stop_record := fun id w =>
    ((cam.stop_record id w.1).1, (cam.stop_record id w.1).2,
      if (cam.stop_record id w.1).1 = true then w.2.erase id else w.2)

/-- The open sessions that the stored recording id stands for: none when it is 0,
otherwise the one session with that id. -/
def stored_sessions (cur_record_id : Nat) : List Nat :=
  if cur_record_id = 0 then [] else [cur_record_id]

/-! ## main.cpp: the focus point -/

/-- Macro `POINTS_X`. -/
def POINTS_X : Int := 0xd

/-- Macro `POINTS_Y`. -/
def POINTS_Y : Int := 0x7

/-- Handler `case command::focus_point`; `arg` holds the two results of
`std::stoi` when the line has exactly three words. `store` is the conversion of
an `int` to the type of the members `x` and `y` of `auto_focus_point`, which is
declared outside the embedded sources. -/
def main.focus_point {σ : Type} (cam : camera σ) (store : Int → Int)
    (arg : Option (Int × Int)) (st : main_state σ) : main_state σ :=
  match arg with
  | none => st
  | some (x, y) =>
    let point : auto_focus_point := ⟨store x, store y⟩
    if point.x * point.y ≤ 0 then st
    else
      let u := call_update_setting cam (.focus point) st
      if u.1 = true then (call_current_settings cam u.2).2 else u.2

/-- The part of `onMouse` that follows the computation of `point` from the click
position (which is floating point and is not embedded): the grid test, then
`update_setting(sockfd, point)` and the settings fetch on success. The
`current_properties settings` it fetches into is a local of `onMouse`. -/
def onMouse_point {σ : Type} (cam : camera σ) (point : auto_focus_point)
    (st : main_state σ) : main_state σ :=
  if point.x < 1 ∨ point.x > POINTS_X ∨ point.y < 1 ∨ point.y > POINTS_Y then st
  else
    let u := call_update_setting cam (.focus point) st
    if u.1 = true then
      let f := call_current_settings cam u.2
      ⟨f.2.world, f.2.sent, st.settings, f.2.cur_record_id⟩
    else u.2

/-! ## Trace properties of the set-to-target commands -/

/-- Property of the exchanges `l` made by one command: every step command comes
directly after a successful settings fetch whose snapshot satisfies `good`, and
a settings fetch that failed or whose snapshot does not satisfy `good` is the
last exchange of the command. -/
def steps_only_after (good : current_properties → Prop) (l : List exchange) : Prop :=
  (∀ (pre post : List exchange) (e : exchange), l = pre ++ e :: post → e.is_step = true →
      ∃ (pre1 : List exchange) (s : current_properties),
        pre = pre1 ++ [exchange.current_settings true s] ∧ good s)
    ∧ (∀ (pre post : List exchange) (ok : Bool) (s : current_properties),
        l = pre ++ exchange.current_settings ok s :: post → ¬ (ok = true ∧ good s) →
        post = [])

/-- Recursive form of `steps_only_after`, with the exchange `prev` that came
before the list: a step command needs `prev` to be a successful fetch with a
good snapshot, and whatever follows a fetch needs that fetch to be successful
and good. -/
def guarded_from (good : current_properties → Prop) :
    Option exchange → List exchange → Prop
  | _, [] => True
  | prev, e :: l =>
    (e.is_step = true → ∃ s, prev = some (exchange.current_settings true s) ∧ good s)
      ∧ (∀ ok s, prev = some (exchange.current_settings ok s) → ok = true ∧ good s)
      ∧ guarded_from good (some e) l

/-! ## Theorems on message.hpp -/

theorem message_type.of_code_code (t : message_type) :
    message_type.of_code t.code = some t := by
  cases t <;> rfl

theorem object_bytes_two (x : Nat) (h : x < 65536) :
    object_bytes 2 x = [x % 256, x / 256] := by
  have h1 : x / 256 % 256 = x / 256 := Nat.mod_eq_of_lt (by omega)
  simp [object_bytes, h1]

theorem object_bytes_four (x : Nat) (h : x < 4294967296) :
    object_bytes 4 x = [x % 256, x / 256 % 256, x / 65536 % 256, x / 16777216] := by
  have h3 : x / 16777216 % 256 = x / 16777216 := Nat.mod_eq_of_lt (by omega)
  simp only [object_bytes, Nat.div_div_eq_div_mul]
  norm_num [h3]

theorem message_type.code_lt (t : message_type) : t.code < 65536 := by
  cases t <;> decide

/-- C1: for a static message `m` of payload length `N` (index a `uint16_t`, id a
`uint32_t`, any catalogued type), the bytes put on the wire are the 2-byte
little-endian index, the 2-byte little-endian type code, the 4-byte
little-endian id and then the payload, `8 + N` bytes as `size()` reports, and
reading the header and the id back recovers index, type and id. -/
theorem wire_bytes_layout_roundtrip {N : Nat} (m : static_message N) (h : m.wf) :
    wire_bytes m =
        [m.index % 256, m.index / 256, m.type.code % 256, m.type.code / 256,
         m.id % 256, m.id / 256 % 256, m.id / 65536 % 256, m.id / 16777216] ++ m.data
      ∧ (wire_bytes m).length = 8 + N
      ∧ m.size = 8 + N
      ∧ decode_header (wire_bytes m) = some (m.index, m.type)
      ∧ decode_id (wire_bytes m) = some m.id := by
  obtain ⟨hi, hid, hlen, _⟩ := h
  have hc := message_type.code_lt m.type
  have hw : wire_bytes m =
      [m.index % 256, m.index / 256, m.type.code % 256, m.type.code / 256,
       m.id % 256, m.id / 256 % 256, m.id / 65536 % 256, m.id / 16777216] ++ m.data := by
    unfold wire_bytes
    rw [object_bytes_two _ hi, object_bytes_two _ hc, object_bytes_four _ hid]
    apply List.take_of_length_le
    simp [static_message.size, sizeof_message_header, sizeof_message_id, hlen]
    omega
  refine ⟨hw, ?_, ?_, ?_, ?_⟩
  · rw [hw]; simp [hlen]; omega
  · simp [static_message.size, sizeof_message_header, sizeof_message_id]
  · rw [hw]
    have e1 : m.type.code % 256 + 256 * (m.type.code / 256) = m.type.code := by omega
    have e2 : m.index % 256 + 256 * (m.index / 256) = m.index := by omega
    simp [decode_header, e1, e2, message_type.of_code_code]
  · rw [hw]
    have e3 : m.id % 256 + 256 * (m.id / 256 % 256) + 65536 * (m.id / 65536 % 256)
        + 16777216 * (m.id / 16777216) = m.id := by omega
    simp [decode_id, e3]

/-- Witness for C1 at the canned status request message. -/
theorem wire_bytes_layout_roundtrip_witness :
    status_request_message.wf
      ∧ wire_bytes status_request_message = [1, 0, 0x15, 0x10, 0, 0, 0, 0, 0x12, 0xd2, 0, 0]
      ∧ decode_header (wire_bytes status_request_message)
          = some (1, message_type.single_part) := by
  have hwf : status_request_message.wf := by
    refine ⟨by decide, by decide, rfl, ?_⟩
    intro b hb
    simp [status_request_message] at hb
    omega
  have h := wire_bytes_layout_roundtrip status_request_message hwf
  exact ⟨hwf, by rw [h.1]; rfl, h.2.2.2.1⟩

/-- C2 (as stated, refuted): the two-part message with index 65535 satisfies the
hypotheses of the claim, yet the follow-up built from it has index 0, which is
not `65535 + 1`. -/
theorem followup_index_wraps :
    last_index_message.wf ∧ last_index_message.type = message_type.two_part
      ∧ ∃ r : static_message 0,
          make_static_message_followup 0 last_index_message [] = some r
            ∧ r.index = 0 ∧ r.index ≠ last_index_message.index + 1 := by
  refine ⟨⟨by decide, by decide, rfl, ?_⟩, rfl, ⟨0, message_type.two_part, 7, []⟩, rfl, rfl, ?_⟩
  · intro b hb
    simp [last_index_message] at hb
  · decide

/-- C2 (amended): for every message `prev` of type two_part and every payload,
`make_static_message_followup` returns a message of type two_part with the id of
`prev`, the given payload, and index `(prev.index + 1) mod 2^16`, which is
`prev.index + 1` whenever `prev.index < 65535`. -/
theorem followup_of_two_part {P : Nat} (N : Nat) (prev : static_message P)
    (data : List Nat) (h : prev.type = message_type.two_part) :
    ∃ r : static_message N,
      make_static_message_followup N prev data = some r
        ∧ r.type = message_type.two_part ∧ r.id = prev.id ∧ r.data = data
        ∧ r.index = (prev.index + 1) % 65536
        ∧ (prev.index < 65535 → r.index = prev.index + 1) := by
  refine ⟨⟨(prev.index + 1) % 65536, message_type.two_part, prev.id, data⟩, ?_, rfl, rfl,
    rfl, rfl, ?_⟩
  · simp [make_static_message_followup, h]
  · intro hlt
    exact Nat.mod_eq_of_lt (by omega)

/-- Witness for C2 (amended): the follow-up of a first part with index 1 and id 42
has index 2 and id 42. -/
theorem followup_of_two_part_witness :
    ∃ r : static_message 2,
      make_static_message_followup 2
          (⟨1, message_type.two_part, 42, [5]⟩ : static_message 1) [8, 9] = some r
        ∧ r.type = message_type.two_part ∧ r.id = 42 ∧ r.data = [8, 9]
        ∧ r.index = 2 ∧ ((1 : Nat) < 65535 → r.index = 1 + 1) :=
  followup_of_two_part 2 (⟨1, message_type.two_part, 42, [5]⟩ : static_message 1) [8, 9] rfl

/-- C3: for every message `prev` whose type is not two_part,
`make_static_message_followup` fails on its assertion and produces no message. -/
theorem followup_of_other_type_fails {P : Nat} (N : Nat) (prev : static_message P)
    (data : List Nat) (h : prev.type ≠ message_type.two_part) :
    make_static_message_followup N prev data = none := by
  simp [make_static_message_followup, h]

/-- Witness for C3: no follow-up is built from the single-part status request. -/
theorem followup_of_other_type_fails_witness :
    status_request_message.type ≠ message_type.two_part
      ∧ make_static_message_followup 1 status_request_message [3] = none :=
  ⟨by decide, followup_of_other_type_fails 1 status_request_message [3] (by decide)⟩

/-- C4: `make_static_message(t, p)` returns a message with index 1, type `t`,
payload `p` and the id that the generator produced for this call, and it
advances the generator once. -/
theorem make_static_message_fields {γ : Type} (gen : γ → Nat × γ) (N : Nat) (g : γ)
    (t : message_type) (p : List Nat) :
    (make_static_message gen N g t p).1.index = 1
      ∧ (make_static_message gen N g t p).1.type = t
      ∧ (make_static_message gen N g t p).1.data = p
      ∧ (make_static_message gen N g t p).1.id = (gen g).1
      ∧ (make_static_message gen N g t p).2 = (gen g).2 :=
  ⟨rfl, rfl, rfl, rfl, rfl⟩

/-! ## Theorems on the set-to-target commands against simulated cameras -/

theorem sim_after_step_world (move : setting_update → Nat → Nat)
    (dir : fnumber_update_direction) (st : main_state Nat) :
    (sim_after_step move dir st).world = move (.fnumber dir) st.world := rfl

theorem sim_after_step_aperture (move : setting_update → Nat → Nat)
    (dir : fnumber_update_direction) (st : main_state Nat) :
    (sim_after_step move dir st).settings.values .property_aperture
      = move (.fnumber dir) st.world := by
  simp [sim_after_step, call_current_settings, call_update_setting, sim_camera]

theorem sim_after_step_count (move : setting_update → Nat → Nat)
    (dir : fnumber_update_direction) (st : main_state Nat) :
    step_count (sim_after_step move dir st).sent = step_count st.sent + 1 := by
  simp [sim_after_step, call_current_settings, call_update_setting, sim_camera, step_count,
    exchange.is_step, List.countP_cons]

/-- One iteration of the aperture loop against a simulated aperture camera. -/
theorem sim_loop_succ (move : setting_update → Nat → Nat) (T : Nat)
    (dir : fnumber_update_direction) (fuel : Nat) (st : main_state Nat) :
    main.set_aperture_loop (sim_camera .property_aperture move) T dir (fuel + 1) st
      = if move (.fnumber dir) st.world ≠ st.settings.values .property_aperture
            ∧ T ≠ move (.fnumber dir) st.world
            ∧ dir = fnumber_direction T (move (.fnumber dir) st.world)
        then main.set_aperture_loop (sim_camera .property_aperture move) T dir fuel
          (sim_after_step move dir st)
        else (true, sim_after_step move dir st) := by
  rw [main.set_aperture_loop]
  simp [sim_after_step, call_current_settings, call_update_setting, sim_camera]

/-- The first settings fetch of a command against a simulated aperture camera. -/
theorem sim_fetch (move : setting_update → Nat → Nat) (st : main_state Nat) :
    (call_current_settings (sim_camera .property_aperture move) st).1 = true
      ∧ (call_current_settings (sim_camera .property_aperture move) st).2.world = st.world
      ∧ (call_current_settings (sim_camera .property_aperture move) st).2.settings.values
          .property_aperture = st.world
      ∧ step_count (call_current_settings (sim_camera .property_aperture move) st).2.sent
          = step_count st.sent := by
  simp [call_current_settings, sim_camera, step_count, exchange.is_step, List.countP_cons]

/-- Upward run of the loop against the clamped camera: `k + 1` steps of `d` from
the current value reach the target `T ≤ hi`. -/
theorem clamped_loop_increment (d lo hi T : Nat) (hd : 0 < d) (hT : T ≤ hi) :
    ∀ (k fuel : Nat) (st : main_state Nat), k + 1 ≤ fuel →
      st.settings.values .property_aperture = st.world → lo ≤ st.world →
      st.world + (k + 1) * d = T →
      ∃ st1 : main_state Nat,
        main.set_aperture_loop (clamped_camera d lo hi) T .fnumber_increment fuel st
            = (true, st1)
          ∧ st1.world = T ∧ st1.settings.values .property_aperture = T
          ∧ step_count st1.sent = step_count st.sent + (k + 1) := by
  intro k
  induction k with
  | zero =>
    intro fuel st hfuel hs hlo hk
    obtain ⟨n, rfl⟩ : ∃ n, fuel = n + 1 := ⟨fuel - 1, by omega⟩
    have hmove : clamped_move d lo hi (.fnumber .fnumber_increment) st.world = T := by
      simp only [clamped_move]
      omega
    refine ⟨sim_after_step (clamped_move d lo hi) .fnumber_increment st, ?_, ?_, ?_, ?_⟩
    · rw [clamped_camera, sim_loop_succ, hmove]
      simp
    · rw [sim_after_step_world, hmove]
    · rw [sim_after_step_aperture, hmove]
    · rw [sim_after_step_count]
  | succ k ih =>
    intro fuel st hfuel hs hlo hk
    obtain ⟨n, rfl⟩ : ∃ n, fuel = n + 1 := ⟨fuel - 1, by omega⟩
    have hmul : (k + 1 + 1) * d = (k + 1) * d + d := by ring
    have hpos : 0 < (k + 1) * d := Nat.mul_pos (by omega) hd
    have hmove : clamped_move d lo hi (.fnumber .fnumber_increment) st.world
        = st.world + d := by
      simp only [clamped_move]
      omega
    have hdir : fnumber_update_direction.fnumber_increment
        = fnumber_direction T (st.world + d) := by
      have : ¬ T < st.world + d := by omega
      simp [fnumber_direction, this]
    obtain ⟨st1, h1, h2, h3, h4⟩ :=
      ih n (sim_after_step (clamped_move d lo hi) .fnumber_increment st) (by omega)
        (by rw [sim_after_step_aperture, sim_after_step_world])
        (by rw [sim_after_step_world, hmove]; omega)
        (by rw [sim_after_step_world, hmove]; omega)
    refine ⟨st1, ?_, h2, h3, ?_⟩
    · rw [clamped_camera, sim_loop_succ, hmove, if_pos ⟨by omega, by omega, hdir⟩]
      exact h1
    · rw [h4, sim_after_step_count]
      omega

/-- Downward run of the loop against the clamped camera: `k + 1` steps of `d` from
the current value reach the target `T ≥ lo`. -/
theorem clamped_loop_decrement (d lo hi T : Nat) (hd : 0 < d) (hT : lo ≤ T) :
    ∀ (k fuel : Nat) (st : main_state Nat), k + 1 ≤ fuel →
      st.settings.values .property_aperture = st.world → st.world ≤ hi →
      st.world = T + (k + 1) * d →
      ∃ st1 : main_state Nat,
        main.set_aperture_loop (clamped_camera d lo hi) T .fnumber_decrement fuel st
            = (true, st1)
          ∧ st1.world = T ∧ st1.settings.values .property_aperture = T
          ∧ step_count st1.sent = step_count st.sent + (k + 1) := by
  intro k
  induction k with
  | zero =>
    intro fuel st hfuel hs hhi hk
    obtain ⟨n, rfl⟩ : ∃ n, fuel = n + 1 := ⟨fuel - 1, by omega⟩
    have hmove : clamped_move d lo hi (.fnumber .fnumber_decrement) st.world = T := by
      simp only [clamped_move]
      omega
    refine ⟨sim_after_step (clamped_move d lo hi) .fnumber_decrement st, ?_, ?_, ?_, ?_⟩
    · rw [clamped_camera, sim_loop_succ, hmove]
      simp
    · rw [sim_after_step_world, hmove]
    · rw [sim_after_step_aperture, hmove]
    · rw [sim_after_step_count]
  | succ k ih =>
    intro fuel st hfuel hs hhi hk
    obtain ⟨n, rfl⟩ : ∃ n, fuel = n + 1 := ⟨fuel - 1, by omega⟩
    have hmul : (k + 1 + 1) * d = (k + 1) * d + d := by ring
    have hpos : 0 < (k + 1) * d := Nat.mul_pos (by omega) hd
    have hmove : clamped_move d lo hi (.fnumber .fnumber_decrement) st.world
        = st.world - d := by
      simp only [clamped_move]
      omega
    have hdir : fnumber_update_direction.fnumber_decrement
        = fnumber_direction T (st.world - d) := by
      have : T < st.world - d := by omega
      simp [fnumber_direction, this]
    obtain ⟨st1, h1, h2, h3, h4⟩ :=
      ih n (sim_after_step (clamped_move d lo hi) .fnumber_decrement st) (by omega)
        (by rw [sim_after_step_aperture, sim_after_step_world])
        (by rw [sim_after_step_world, hmove]; omega)
        (by rw [sim_after_step_world, hmove]; omega)
    refine ⟨st1, ?_, h2, h3, ?_⟩
    · rw [clamped_camera, sim_loop_succ, hmove, if_pos ⟨by omega, by omega, hdir⟩]
      exact h1
    · rw [h4, sim_after_step_count]
      omega

/-- The handler `set_aperture` against a simulated aperture camera, once the
guards on the target and on the fetched value hold: it runs the loop from the
state left by the first fetch. -/
theorem sim_set_aperture_enters (move : setting_update → Nat → Nat) (T fuel : Nat)
    (st : main_state Nat) (h0 : 0 < T) (h1 : T < 6400) (h2 : 0 < st.world)
    (h3 : T ≠ st.world) :
    main.set_aperture (sim_camera .property_aperture move) fuel (some T) st
      = main.set_aperture_loop (sim_camera .property_aperture move) T
          (fnumber_direction T st.world) fuel
          (call_current_settings (sim_camera .property_aperture move) st).2 := by
  obtain ⟨hf1, _, hf3, _⟩ := sim_fetch move st
  simp only [main.set_aperture]
  rw [if_pos ⟨h0, h1⟩, hf3, if_pos ⟨hf1, h2, h3⟩]

/-- C5 (as stated, refuted): with current value 6390, target 6400 and step 10, all
within `[140, 6400]`, the command sends no step command and the camera stays at
6390, because the handler only accepts targets below 6400. -/
theorem set_aperture_rejects_6400 :
    (main.set_aperture (clamped_camera 10 140 6400) 1 (some 6400) (initial_state 6390)).1
        = true
      ∧ step_count
          (main.set_aperture (clamped_camera 10 140 6400) 1 (some 6400)
            (initial_state 6390)).2.sent = 0
      ∧ Nat.dist 6400 6390 / 10 = 1
      ∧ (main.set_aperture (clamped_camera 10 140 6400) 1 (some 6400)
            (initial_state 6390)).2.world = 6390 := by
  refine ⟨rfl, rfl, by decide, rfl⟩

/-- C5 (amended): against the simulated camera that moves the aperture by `d > 0`
per step command, clamped to `[140, 6400]`, for every current value `c` in
`[140, 6400]` and every target `T` in `[140, 6400)` with `T ≠ c` and `|T - c|` a
multiple of `d`, the `set_aperture` command terminates (within `|T - c| / d`
iterations), sends exactly `|T - c| / d` step commands and leaves both the
snapshot and the camera at `T`. -/
theorem set_aperture_reaches_target (d c T fuel : Nat) (st : main_state Nat)
    (hd : 0 < d) (hc : 140 ≤ c ∧ c ≤ 6400) (hT : 140 ≤ T ∧ T < 6400) (hne : T ≠ c)
    (hdiv : d ∣ Nat.dist T c) (hfuel : Nat.dist T c / d ≤ fuel) (hst : st.world = c) :
    ∃ st1 : main_state Nat,
      main.set_aperture (clamped_camera d 140 6400) fuel (some T) st = (true, st1)
        ∧ step_count st1.sent = step_count st.sent + Nat.dist T c / d
        ∧ st1.settings.values .property_aperture = T
        ∧ st1.world = T := by
  subst hst
  obtain ⟨q, hq⟩ := hdiv
  have hquot : Nat.dist T st.world / d = q := by
    rw [hq]
    exact Nat.mul_div_cancel_left q hd
  rw [hquot] at hfuel ⊢
  obtain ⟨hf1, hf2, hf3, hf4⟩ := sim_fetch (clamped_move d 140 6400) st
  simp only [Nat.dist] at hq
  have hq1 : 1 ≤ q := by
    rcases Nat.eq_zero_or_pos q with h | h
    · subst h
      simp only [Nat.mul_zero] at hq
      omega
    · exact h
  have hmul : (q - 1 + 1) * d = d * q := by
    rw [Nat.sub_add_cancel hq1, Nat.mul_comm]
  have henter := sim_set_aperture_enters (clamped_move d 140 6400) T fuel st
    (by omega) hT.2 (by omega) hne
  rw [clamped_camera, henter]
  rcases Nat.lt_or_gt_of_ne hne with hlt | hgt
  · have hdir : fnumber_direction T st.world = .fnumber_decrement := by
      simp [fnumber_direction, hlt]
    rw [hdir]
    obtain ⟨st1, h1, h2, h3, h4⟩ :=
      clamped_loop_decrement d 140 6400 T hd hT.1 (q - 1) fuel
        (call_current_settings (sim_camera .property_aperture (clamped_move d 140 6400)) st).2
        (by omega) (by rw [hf3, hf2]) (by rw [hf2]; omega) (by rw [hf2, hmul]; omega)
    exact ⟨st1, h1, by rw [h4, hf4]; omega, h3, h2⟩
  · have hdir : fnumber_direction T st.world = .fnumber_increment := by
      have : ¬ T < st.world := by omega
      simp [fnumber_direction, this]
    rw [hdir]
    obtain ⟨st1, h1, h2, h3, h4⟩ :=
      clamped_loop_increment d 140 6400 T hd (by omega) (q - 1) fuel
        (call_current_settings (sim_camera .property_aperture (clamped_move d 140 6400)) st).2
        (by omega) (by rw [hf3, hf2]) (by rw [hf2]; omega) (by rw [hf2, hmul]; omega)
    exact ⟨st1, h1, by rw [h4, hf4]; omega, h3, h2⟩

/-- Witness for C5 (amended): from 280 to 400 in steps of 10 the command sends 12
step commands and ends at 400. -/
theorem set_aperture_reaches_target_witness :
    ∃ st1 : main_state Nat,
      main.set_aperture (clamped_camera 10 140 6400) 12 (some 400) (initial_state 280)
          = (true, st1)
        ∧ step_count st1.sent = 12
        ∧ st1.settings.values .property_aperture = 400
        ∧ st1.world = 400 := by
  obtain ⟨st1, h1, h2, h3, h4⟩ :=
    set_aperture_reaches_target 10 280 400 12 (initial_state 280) (by decide)
      ⟨by decide, by decide⟩ ⟨by decide, by decide⟩ (by decide) ⟨12, by decide⟩
      (by decide) rfl
  exact ⟨st1, h1, h2, h3, h4⟩

theorem ceil_div_step (d x : Nat) (hd : 0 < d) (hx : 0 < x) :
    (x + d - 1) / d = (x - d + d - 1) / d + 1 := by
  rcases Nat.lt_or_ge x d with h | h
  · have h1 : x - d + d - 1 = d - 1 := by omega
    rw [h1, Nat.div_eq_of_lt (by omega : d - 1 < d)]
    exact Nat.div_eq_of_lt_le (by omega) (by omega)
  · have h1 : x + d - 1 = (x - d + d - 1) + d := by omega
    rw [h1, Nat.add_div_right _ hd]

theorem floor_steps_floor (d f : Nat) (hd : 0 < d) : floor_steps d f f = 1 := by
  have h1 : f - f + d - 1 = d - 1 := by omega
  rw [floor_steps, h1, Nat.div_eq_of_lt (by omega : d - 1 < d)]

theorem floor_steps_succ (d f v : Nat) (hd : 0 < d) (hv : f < v) :
    floor_steps d f v = floor_steps d f (max f (v - d)) + 1 := by
  have h1 : max f (v - d) - f = (v - f) - d := by omega
  rw [floor_steps, floor_steps, h1, ceil_div_step d (v - f) hd (by omega)]

/-- Downward run of the loop against the floor camera with the target below the
floor: the value falls to the floor and the next step command, which no longer
moves it, ends the loop. -/
theorem floor_loop_stalls (d f T : Nat) (hd : 0 < d) (hT : T < f) :
    ∀ (g fuel : Nat) (st : main_state Nat), st.world = f + g →
      st.settings.values .property_aperture = st.world →
      floor_steps d f st.world ≤ fuel →
      ∃ st1 : main_state Nat,
        main.set_aperture_loop (floor_camera d f) T .fnumber_decrement fuel st = (true, st1)
          ∧ st1.world = f ∧ st1.settings.values .property_aperture = f
          ∧ step_count st1.sent = step_count st.sent + floor_steps d f st.world := by
  intro g
  induction g using Nat.strong_induction_on with
  | _ g ih =>
    intro fuel st hg hs hfuel
    have hmove : floor_move d f (.fnumber .fnumber_decrement) st.world
        = max f (st.world - d) := rfl
    rcases Nat.eq_zero_or_pos g with h0 | hpos
    · subst h0
      have hw : st.world = f := by omega
      rw [hw, floor_steps_floor d f hd] at hfuel
      obtain ⟨n, rfl⟩ : ∃ n, fuel = n + 1 := ⟨fuel - 1, by omega⟩
      have hstay : max f (st.world - d) = f := by omega
      refine ⟨sim_after_step (floor_move d f) .fnumber_decrement st, ?_, ?_, ?_, ?_⟩
      · rw [floor_camera, sim_loop_succ, hmove, hstay, hs, hw]
        simp
      · rw [sim_after_step_world, hmove, hstay]
      · rw [sim_after_step_aperture, hmove, hstay]
      · rw [sim_after_step_count, hw, floor_steps_floor d f hd]
    · have hsucc := floor_steps_succ d f st.world hd (by omega)
      rw [hsucc] at hfuel
      obtain ⟨n, rfl⟩ : ∃ n, fuel = n + 1 := ⟨fuel - 1, by omega⟩
      have hdir : fnumber_update_direction.fnumber_decrement
          = fnumber_direction T (max f (st.world - d)) := by
        have : T < max f (st.world - d) := by omega
        simp only [fnumber_direction, this, if_true]
      obtain ⟨st1, h1, h2, h3, h4⟩ :=
        ih (g - d) (by omega) n (sim_after_step (floor_move d f) .fnumber_decrement st)
          (by rw [sim_after_step_world, hmove]; omega)
          (by rw [sim_after_step_aperture, sim_after_step_world])
          (by rw [sim_after_step_world, hmove]; omega)
      refine ⟨st1, ?_, h2, h3, ?_⟩
      · rw [floor_camera, sim_loop_succ, hmove, if_pos ⟨by omega, by omega, hdir⟩]
        exact h1
      · rw [h4, sim_after_step_count, sim_after_step_world, hmove, hsucc]
        omega

/-- C6 (as stated, refuted): with floor 7000, current value 8000, step 10 and target
6500 (positive and below the floor), the command sends no step command and the
camera stays at 8000, not at the floor, because the handler only accepts
targets below 6400. -/
theorem set_aperture_ignores_high_target :
    (main.set_aperture (floor_camera 10 7000) 101 (some 6500) (initial_state 8000)).1 = true
      ∧ step_count
          (main.set_aperture (floor_camera 10 7000) 101 (some 6500)
            (initial_state 8000)).2.sent = 0
      ∧ (main.set_aperture (floor_camera 10 7000) 101 (some 6500)
            (initial_state 8000)).2.world = 8000
      ∧ (8000 : Nat) ≠ 7000 := by
  refine ⟨rfl, rfl, rfl, by decide⟩

/-- C6 (amended): against the simulated camera that moves the aperture by `d > 0`
per step command, clamped below at a floor `f > 0`, for every current value
`c ≥ f` and every target `T` with `0 < T < f` and `T < 6400`, the `set_aperture`
command terminates after `floor_steps d f c` step commands (those that move
the value down to the floor, and the first one that leaves it unchanged), and
the snapshot and the camera end at `f`. Against a camera that ignores step
commands it sends exactly one step command. -/
theorem set_aperture_stalls_at_floor (d f c T fuel : Nat) (st : main_state Nat)
    (hd : 0 < d) (hf : 0 < f) (hc : f ≤ c) (hT : 0 < T ∧ T < f) (hT6400 : T < 6400)
    (hfuel : floor_steps d f c ≤ fuel) (hst : st.world = c) :
    (∃ st1 : main_state Nat,
      main.set_aperture (floor_camera d f) fuel (some T) st = (true, st1)
        ∧ step_count st1.sent = step_count st.sent + floor_steps d f c
        ∧ st1.settings.values .property_aperture = f
        ∧ st1.world = f)
    ∧ (∃ st2 : main_state Nat,
      main.set_aperture (ignoring_camera .property_aperture) fuel (some T) st = (true, st2)
        ∧ step_count st2.sent = step_count st.sent + 1
        ∧ st2.settings.values .property_aperture = c
        ∧ st2.world = c) := by
  subst hst
  have hdir : fnumber_direction T st.world = .fnumber_decrement := by
    have : T < st.world := by omega
    simp only [fnumber_direction, this, if_true]
  constructor
  · obtain ⟨hf1, hf2, hf3, hf4⟩ := sim_fetch (floor_move d f) st
    have henter := sim_set_aperture_enters (floor_move d f) T fuel st hT.1 hT6400
      (by omega) (by omega)
    rw [floor_camera, henter, hdir]
    obtain ⟨st1, h1, h2, h3, h4⟩ :=
      floor_loop_stalls d f T hd hT.2 (st.world - f) fuel
        (call_current_settings (sim_camera .property_aperture (floor_move d f)) st).2
        (by rw [hf2]; omega) (by rw [hf3, hf2]) (by rw [hf2]; exact hfuel)
    exact ⟨st1, h1, by rw [h4, hf4, hf2], h3, h2⟩
  · obtain ⟨hf1, hf2, hf3, hf4⟩ := sim_fetch (fun _ v => v) st
    have henter := sim_set_aperture_enters (fun _ v => v) T fuel st hT.1 hT6400
      (by omega) (by omega)
    have h1 : 1 ≤ floor_steps d f st.world := Nat.le_add_left 1 _
    obtain ⟨n, rfl⟩ : ∃ n, fuel = n + 1 := ⟨fuel - 1, by omega⟩
    rw [ignoring_camera, henter, hdir, sim_loop_succ]
    refine ⟨sim_after_step (fun _ v => v) .fnumber_decrement
      (call_current_settings (sim_camera .property_aperture (fun _ v => v)) st).2, ?_, ?_,
      ?_, ?_⟩
    · rw [hf3, hf2]
      simp
    · rw [sim_after_step_count, hf4]
    · rw [sim_after_step_aperture, hf2]
    · rw [sim_after_step_world, hf2]

/-- Witness for C6 (amended): floor 140, current value 175, step 10, target 100:
five step commands (175, 165, 155, 145, 140, 140), ending at the floor. -/
theorem set_aperture_stalls_at_floor_witness :
    (∃ st1 : main_state Nat,
      main.set_aperture (floor_camera 10 140) 5 (some 100) (initial_state 175) = (true, st1)
        ∧ step_count st1.sent = 5
        ∧ st1.settings.values .property_aperture = 140
        ∧ st1.world = 140)
    ∧ (∃ st2 : main_state Nat,
      main.set_aperture (ignoring_camera .property_aperture) 5 (some 100) (initial_state 175)
          = (true, st2)
        ∧ step_count st2.sent = 1
        ∧ st2.settings.values .property_aperture = 175
        ∧ st2.world = 175) := by
  obtain ⟨⟨st1, h1, h2, h3, h4⟩, ⟨st2, k1, k2, k3, k4⟩⟩ :=
    set_aperture_stalls_at_floor 10 140 175 100 5 (initial_state 175) (by decide)
      (by decide) (by decide) ⟨by decide, by decide⟩ (by decide) (by decide) rfl
  exact ⟨⟨st1, h1, h2, h3, h4⟩, ⟨st2, k1, k2, k3, k4⟩⟩

/-! ## Theorems on the set-to-target commands against every camera -/

theorem new_exchanges_of_append {σ : Type} (st st1 : main_state σ) (l : List exchange)
    (h : st1.sent = st.sent ++ l) : new_exchanges st st1 = l := by
  simp [new_exchanges, h]

theorem new_exchanges_self {σ : Type} (st : main_state σ) : new_exchanges st st = [] := by
  simp [new_exchanges]

theorem new_exchanges_fetch {σ : Type} (cam : camera σ) (st : main_state σ) :
    new_exchanges st (call_current_settings cam st).2
      = [exchange.current_settings (cam.current_settings st.settings st.world).1
          (cam.current_settings st.settings st.world).2.1] := by
  simp [new_exchanges, call_current_settings]

theorem fetch_settings {σ : Type} (cam : camera σ) (st : main_state σ) (p : property) :
    (call_current_settings cam st).2.settings.values p = first_fetch_value cam st p := rfl

theorem fetch_sent {σ : Type} (cam : camera σ) (st : main_state σ) :
    (call_current_settings cam st).2.sent
      = st.sent ++ [exchange.current_settings (cam.current_settings st.settings st.world).1
          (cam.current_settings st.settings st.world).2.1] := rfl

/-- C7 (as stated, refuted): the camera reports exposure compensation 0 (not
positive) and the target is 1000; the command still sends a step command. -/
theorem set_exposure_compensation_steps_from_zero :
    first_fetch_value (ignoring_camera .property_exposure_compensation) (initial_state 0)
        .property_exposure_compensation = 0
      ∧ step_count
          (new_exchanges (initial_state 0)
            (main.set_exposure_compensation
              (ignoring_camera .property_exposure_compensation) 1 (some 1000)
              (initial_state 0)).2) = 1 := by
  refine ⟨rfl, rfl⟩

/-- C7 (amended): for every camera and every target, `set_aperture` and
`set_shutter_speed` send no step command when the first settings fetch reports
a value that is zero or already equals the target (for the shutter speed: after
conversion to microseconds), and `set_exposure_compensation` sends no step
command when the first fetch reports a value that equals the target. In each
case the command ends, having made at most the one settings fetch. -/
theorem no_step_when_invalid_or_on_target {σ : Type} (cam : camera σ)
    (ss_to_microsec : Nat → Nat) (fuel : Nat) (st : main_state σ)
    (aperture exp : Nat) (new_speed : ℚ) :
    ((first_fetch_value cam st .property_aperture = 0
        ∨ first_fetch_value cam st .property_aperture = aperture) →
      (main.set_aperture cam fuel (some aperture) st).1 = true
        ∧ (main.set_aperture cam fuel (some aperture) st).2.sent
            = st.sent ++ new_exchanges st (main.set_aperture cam fuel (some aperture) st).2
        ∧ step_count (new_exchanges st (main.set_aperture cam fuel (some aperture) st).2) = 0
        ∧ (new_exchanges st (main.set_aperture cam fuel (some aperture) st).2).length ≤ 1)
    ∧ ((first_fetch_value cam st .property_shutter_speed = 0
        ∨ (ss_to_microsec (first_fetch_value cam st .property_shutter_speed) : ℚ)
            = new_speed) →
      (main.set_shutter_speed cam ss_to_microsec fuel (some new_speed) st).1 = true
        ∧ (main.set_shutter_speed cam ss_to_microsec fuel (some new_speed) st).2.sent
            = st.sent ++ new_exchanges st
                (main.set_shutter_speed cam ss_to_microsec fuel (some new_speed) st).2
        ∧ step_count
            (new_exchanges st
              (main.set_shutter_speed cam ss_to_microsec fuel (some new_speed) st).2) = 0
        ∧ (new_exchanges st
              (main.set_shutter_speed cam ss_to_microsec fuel (some new_speed) st).2).length
            ≤ 1)
    ∧ (first_fetch_value cam st .property_exposure_compensation = exp →
      (main.set_exposure_compensation cam fuel (some exp) st).1 = true
        ∧ (main.set_exposure_compensation cam fuel (some exp) st).2.sent
            = st.sent ++ new_exchanges st
                (main.set_exposure_compensation cam fuel (some exp) st).2
        ∧ step_count
            (new_exchanges st (main.set_exposure_compensation cam fuel (some exp) st).2) = 0
        ∧ (new_exchanges st
              (main.set_exposure_compensation cam fuel (some exp) st).2).length ≤ 1) := by
  have hfetch : step_count (new_exchanges st (call_current_settings cam st).2) = 0 := by
    rw [new_exchanges_fetch]
    rfl
  have hsent : (call_current_settings cam st).2.sent
      = st.sent ++ new_exchanges st (call_current_settings cam st).2 := by
    rw [new_exchanges_fetch, fetch_sent]
  have hlen : (new_exchanges st (call_current_settings cam st).2).length ≤ 1 := by
    rw [new_exchanges_fetch]
    simp
  refine ⟨?_, ?_, ?_⟩
  · intro h
    simp only [main.set_aperture]
    by_cases hg : aperture > 0 ∧ aperture < 6400
    · have hc : ¬ ((call_current_settings cam st).1 = true
          ∧ (call_current_settings cam st).2.settings.values .property_aperture > 0
          ∧ aperture ≠ (call_current_settings cam st).2.settings.values .property_aperture) := by
        rw [fetch_settings]
        rintro ⟨_, h1, h2⟩
        rcases h with h | h
        · omega
        · exact h2 h.symm
      rw [if_pos hg, if_neg hc]
      exact ⟨rfl, hsent, hfetch, hlen⟩
    · rw [if_neg hg]
      simp [new_exchanges_self, step_count]
  · intro h
    simp only [main.set_shutter_speed]
    have hc : ¬ ((call_current_settings cam st).1 = true
        ∧ (call_current_settings cam st).2.settings.values .property_shutter_speed > 0
        ∧ new_speed
            ≠ (ss_to_microsec
                ((call_current_settings cam st).2.settings.values .property_shutter_speed)
                : ℚ)) := by
      rw [fetch_settings]
      rintro ⟨_, h1, h2⟩
      rcases h with h | h
      · omega
      · exact h2 h.symm
    rw [if_neg hc]
    exact ⟨rfl, hsent, hfetch, hlen⟩
  · intro h
    simp only [main.set_exposure_compensation]
    have hc : ¬ ((call_current_settings cam st).1 = true
        ∧ exp
            ≠ (call_current_settings cam st).2.settings.values
                .property_exposure_compensation) := by
      rw [fetch_settings]
      rintro ⟨_, h2⟩
      exact h2 h.symm
    rw [if_neg hc]
    exact ⟨rfl, hsent, hfetch, hlen⟩

/-- Witness for C7 (amended): a camera that reports aperture 400 (and 0 for the
other properties), with targets 400 for the aperture, 1/250 s for the shutter
speed and 0 for the exposure compensation. -/
theorem no_step_when_invalid_or_on_target_witness :
    step_count
        (new_exchanges (initial_state 400)
          (main.set_aperture (ignoring_camera .property_aperture) 3 (some 400)
            (initial_state 400)).2) = 0
      ∧ step_count
          (new_exchanges (initial_state 400)
            (main.set_shutter_speed (ignoring_camera .property_aperture) id 3 (some 4000)
              (initial_state 400)).2) = 0
      ∧ step_count
          (new_exchanges (initial_state 400)
            (main.set_exposure_compensation (ignoring_camera .property_aperture) 3 (some 0)
              (initial_state 400)).2) = 0 :=
  ⟨((no_step_when_invalid_or_on_target (ignoring_camera .property_aperture) id 3
      (initial_state 400) 400 0 4000).1 (Or.inr rfl)).2.2.1,
   ((no_step_when_invalid_or_on_target (ignoring_camera .property_aperture) id 3
      (initial_state 400) 400 0 4000).2.1 (Or.inl rfl)).2.2.1,
   ((no_step_when_invalid_or_on_target (ignoring_camera .property_aperture) id 3
      (initial_state 400) 400 0 4000).2.2 rfl).2.2.1⟩

theorem update_sent {σ : Type} (cam : camera σ) (u : setting_update) (st : main_state σ) :
    (call_update_setting cam u st).2.sent = st.sent ++ [exchange.update_setting u] := rfl

/-- Shape of what one loop iteration appends: the step command, and after it the
settings fetch. -/
theorem step_then_fetch_sent {σ : Type} (cam : camera σ) (u : setting_update)
    (st : main_state σ) :
    ∃ e : exchange, e.is_step = false ∧
      (call_current_settings cam (call_update_setting cam u st).2).2.sent
        = st.sent ++ [exchange.update_setting u, e] :=
  ⟨exchange.current_settings
      (cam.current_settings (call_update_setting cam u st).2.settings
        (call_update_setting cam u st).2.world).1
      (cam.current_settings (call_update_setting cam u st).2.settings
        (call_update_setting cam u st).2.world).2.1,
    rfl, by rw [fetch_sent, update_sent, List.append_assoc]; rfl⟩

/-- Every step command that the aperture loop sends is the direction it was
started with. -/
theorem set_aperture_loop_steps {σ : Type} (cam : camera σ) (T : Nat)
    (dir : fnumber_update_direction) :
    ∀ (fuel : Nat) (st : main_state σ), ∃ l : List exchange,
      (main.set_aperture_loop cam T dir fuel st).2.sent = st.sent ++ l
        ∧ ∀ e ∈ l, e.is_step = true → e = exchange.update_setting (.fnumber dir) := by
  intro fuel
  induction fuel with
  | zero =>
    intro st
    exact ⟨[], by simp [main.set_aperture_loop], by simp⟩
  | succ n ih =>
    intro st
    obtain ⟨e, he, hsent⟩ := step_then_fetch_sent cam (.fnumber dir) st
    simp only [main.set_aperture_loop]
    split
    · exact ⟨[exchange.update_setting (.fnumber dir)], update_sent cam _ st, by simp⟩
    · split
      · obtain ⟨l, hl, hsteps⟩ :=
          ih (call_current_settings cam (call_update_setting cam (.fnumber dir) st).2).2
        refine ⟨[exchange.update_setting (.fnumber dir), e] ++ l, ?_, ?_⟩
        · rw [hl, hsent, List.append_assoc]
        · intro x hx hstep
          rcases List.mem_append.1 hx with hx | hx
          · rcases List.mem_cons.1 hx with rfl | hx
            · rfl
            · rw [List.mem_singleton.1 hx, he] at hstep
              cases hstep
          · exact hsteps x hx hstep
      · refine ⟨[exchange.update_setting (.fnumber dir), e], hsent, ?_⟩
        intro x hx hstep
        rcases List.mem_cons.1 hx with rfl | hx
        · rfl
        · rw [List.mem_singleton.1 hx, he] at hstep
          cases hstep

/-- Every step command that the shutter speed loop sends is the direction it was
started with. -/
theorem set_shutter_speed_loop_steps {σ : Type} (cam : camera σ)
    (ss_to_microsec : Nat → Nat) (T : ℚ) (dir : ss_update_direction) :
    ∀ (fuel : Nat) (st : main_state σ), ∃ l : List exchange,
      (main.set_shutter_speed_loop cam ss_to_microsec T dir fuel st).2.sent = st.sent ++ l
        ∧ ∀ e ∈ l, e.is_step = true → e = exchange.update_setting (.ss dir) := by
  intro fuel
  induction fuel with
  | zero =>
    intro st
    exact ⟨[], by simp [main.set_shutter_speed_loop], by simp⟩
  | succ n ih =>
    intro st
    obtain ⟨e, he, hsent⟩ := step_then_fetch_sent cam (.ss dir) st
    simp only [main.set_shutter_speed_loop]
    split
    · exact ⟨[exchange.update_setting (.ss dir)], update_sent cam _ st, by simp⟩
    · split
      · obtain ⟨l, hl, hsteps⟩ :=
          ih (call_current_settings cam (call_update_setting cam (.ss dir) st).2).2
        refine ⟨[exchange.update_setting (.ss dir), e] ++ l, ?_, ?_⟩
        · rw [hl, hsent, List.append_assoc]
        · intro x hx hstep
          rcases List.mem_append.1 hx with hx | hx
          · rcases List.mem_cons.1 hx with rfl | hx
            · rfl
            · rw [List.mem_singleton.1 hx, he] at hstep
              cases hstep
          · exact hsteps x hx hstep
      · refine ⟨[exchange.update_setting (.ss dir), e], hsent, ?_⟩
        intro x hx hstep
        rcases List.mem_cons.1 hx with rfl | hx
        · rfl
        · rw [List.mem_singleton.1 hx, he] at hstep
          cases hstep

/-- Every step command that the exposure compensation loop sends is the direction
it was started with. -/
theorem set_exposure_compensation_loop_steps {σ : Type} (cam : camera σ) (T : Nat)
    (dir : exp_update_direction) :
    ∀ (fuel : Nat) (st : main_state σ), ∃ l : List exchange,
      (main.set_exposure_compensation_loop cam T dir fuel st).2.sent = st.sent ++ l
        ∧ ∀ e ∈ l, e.is_step = true → e = exchange.update_setting (.exp dir) := by
  intro fuel
  induction fuel with
  | zero =>
    intro st
    exact ⟨[], by simp [main.set_exposure_compensation_loop], by simp⟩
  | succ n ih =>
    intro st
    obtain ⟨e, he, hsent⟩ := step_then_fetch_sent cam (.exp dir) st
    simp only [main.set_exposure_compensation_loop]
    split
    · exact ⟨[exchange.update_setting (.exp dir)], update_sent cam _ st, by simp⟩
    · split
      · obtain ⟨l, hl, hsteps⟩ :=
          ih (call_current_settings cam (call_update_setting cam (.exp dir) st).2).2
        refine ⟨[exchange.update_setting (.exp dir), e] ++ l, ?_, ?_⟩
        · rw [hl, hsent, List.append_assoc]
        · intro x hx hstep
          rcases List.mem_append.1 hx with hx | hx
          · rcases List.mem_cons.1 hx with rfl | hx
            · rfl
            · rw [List.mem_singleton.1 hx, he] at hstep
              cases hstep
          · exact hsteps x hx hstep
      · refine ⟨[exchange.update_setting (.exp dir), e], hsent, ?_⟩
        intro x hx hstep
        rcases List.mem_cons.1 hx with rfl | hx
        · rfl
        · rw [List.mem_singleton.1 hx, he] at hstep
          cases hstep

theorem new_exchanges_all {σ : Type} (st st1 : main_state σ) (l : List exchange)
    (P : exchange → Prop) (h : st1.sent = st.sent ++ l) (hP : ∀ e ∈ l, P e) :
    st1.sent = st.sent ++ new_exchanges st st1 ∧ ∀ e ∈ new_exchanges st st1, P e := by
  rw [new_exchanges_of_append st st1 l h]
  exact ⟨h, hP⟩

/-- What a loop appends after the first fetch of its command. -/
theorem fetch_then_loop_sent {σ : Type} (cam : camera σ) (st st1 : main_state σ)
    (l : List exchange) (P : exchange → Prop)
    (h : st1.sent = (call_current_settings cam st).2.sent ++ l)
    (hP : ∀ e ∈ l, e.is_step = true → P e) :
    st1.sent = st.sent ++ new_exchanges st st1
      ∧ ∀ e ∈ new_exchanges st st1, e.is_step = true → P e := by
  refine new_exchanges_all st st1
    (exchange.current_settings (cam.current_settings st.settings st.world).1
      (cam.current_settings st.settings st.world).2.1 :: l) _ ?_ ?_
  · rw [h, fetch_sent, List.append_assoc]
    rfl
  · intro e he hstep
    rcases List.mem_cons.1 he with rfl | he
    · cases hstep
    · exact hP e he hstep

/-- C8 (as stated, refuted): when the target shutter speed is below the current
value in microseconds, the command sends `ss_increment`, not the decrement
command. First part: for whatever conversion `ss_to_microsec`, a target of
minus one second (below every converted value) does not yield only
`ss_decrement` commands. Second part: reading the raw value as microseconds, a
camera at 16667 asked for 4000 is sent one step command, `ss_increment`. -/
theorem set_shutter_speed_below_sends_increment :
    (¬ ∃ ss_to_microsec : Nat → Nat,
        ∀ e ∈ new_exchanges (initial_state 1000)
            (main.set_shutter_speed (ignoring_camera .property_shutter_speed) ss_to_microsec 1
              (some (-1000000)) (initial_state 1000)).2,
          e.is_step = true → e = exchange.update_setting (.ss .ss_decrement))
    ∧ (new_exchanges (initial_state 16667)
          (main.set_shutter_speed (ignoring_camera .property_shutter_speed) (fun raw => raw) 1
            (some 4000) (initial_state 16667)).2).filter exchange.is_step
        = [exchange.update_setting (.ss .ss_increment)] := by
  constructor
  · rintro ⟨f, h⟩
    have hlt : (-1000000 : ℚ) < (f 1000 : ℚ) :=
      lt_of_lt_of_le (by norm_num) (Nat.cast_nonneg _)
    have hmem : exchange.update_setting (.ss .ss_increment)
        ∈ new_exchanges (initial_state 1000)
            (main.set_shutter_speed (ignoring_camera .property_shutter_speed) f 1
              (some (-1000000)) (initial_state 1000)).2 := by
      simp [main.set_shutter_speed, main.set_shutter_speed_loop, call_current_settings,
        call_update_setting, ignoring_camera, sim_camera, initial_state, new_exchanges,
        ss_direction, hlt, ne_of_lt hlt]
    have := h _ hmem rfl
    cases this
  · simp [main.set_shutter_speed, main.set_shutter_speed_loop, call_current_settings,
      call_update_setting, ignoring_camera, sim_camera, initial_state, new_exchanges,
      ss_direction, exchange.is_step]
    norm_num

/-- C8 (amended): for every camera and every target, all step commands that a
set-to-target command sends have one direction, fixed by the value of the first
fetch: for the aperture and the exposure compensation the decrement command if
the target is below that raw value and the increment command otherwise; for the
shutter speed `ss_increment` if the target is below that value converted to
microseconds and `ss_decrement` otherwise. -/
theorem step_commands_keep_direction {σ : Type} (cam : camera σ)
    (ss_to_microsec : Nat → Nat) (fuel : Nat) (st : main_state σ)
    (aperture exp : Nat) (new_speed : ℚ) :
    ((main.set_aperture cam fuel (some aperture) st).2.sent
          = st.sent ++ new_exchanges st (main.set_aperture cam fuel (some aperture) st).2
      ∧ ∀ e ∈ new_exchanges st (main.set_aperture cam fuel (some aperture) st).2,
          e.is_step = true →
          e = exchange.update_setting
                (.fnumber (if aperture < first_fetch_value cam st .property_aperture
                  then .fnumber_decrement else .fnumber_increment)))
    ∧ ((main.set_shutter_speed cam ss_to_microsec fuel (some new_speed) st).2.sent
          = st.sent ++ new_exchanges st
              (main.set_shutter_speed cam ss_to_microsec fuel (some new_speed) st).2
      ∧ ∀ e ∈ new_exchanges st
            (main.set_shutter_speed cam ss_to_microsec fuel (some new_speed) st).2,
          e.is_step = true →
          e = exchange.update_setting
                (.ss (if new_speed
                      < (ss_to_microsec (first_fetch_value cam st .property_shutter_speed) : ℚ)
                  then .ss_increment else .ss_decrement)))
    ∧ ((main.set_exposure_compensation cam fuel (some exp) st).2.sent
          = st.sent ++ new_exchanges st
              (main.set_exposure_compensation cam fuel (some exp) st).2
      ∧ ∀ e ∈ new_exchanges st (main.set_exposure_compensation cam fuel (some exp) st).2,
          e.is_step = true →
          e = exchange.update_setting
                (.exp (if exp < first_fetch_value cam st .property_exposure_compensation
                  then .exp_decrement else .exp_increment))) := by
  have hnone : ∀ P : exchange → Prop,
      st.sent = st.sent ++ new_exchanges st st
        ∧ ∀ e ∈ new_exchanges st st, e.is_step = true → P e := by
    intro P
    rw [new_exchanges_self]
    simp
  have hfetch : ∀ P : exchange → Prop,
      (call_current_settings cam st).2.sent
          = st.sent ++ new_exchanges st (call_current_settings cam st).2
        ∧ ∀ e ∈ new_exchanges st (call_current_settings cam st).2,
            e.is_step = true → P e :=
    fun P => fetch_then_loop_sent cam st _ [] P (by simp) (by simp)
  refine ⟨?_, ?_, ?_⟩
  · simp only [main.set_aperture]
    split
    · split
      · obtain ⟨l, hl, hsteps⟩ :=
          set_aperture_loop_steps cam aperture
            (fnumber_direction aperture
              ((call_current_settings cam st).2.settings.values .property_aperture))
            fuel (call_current_settings cam st).2
        exact fetch_then_loop_sent cam st _ l _ hl hsteps
      · exact hfetch _
    · exact hnone _
  · simp only [main.set_shutter_speed]
    split
    · obtain ⟨l, hl, hsteps⟩ :=
        set_shutter_speed_loop_steps cam ss_to_microsec new_speed
          (ss_direction new_speed
            (ss_to_microsec
              ((call_current_settings cam st).2.settings.values .property_shutter_speed)))
          fuel (call_current_settings cam st).2
      exact fetch_then_loop_sent cam st _ l _ hl hsteps
    · exact hfetch _
  · simp only [main.set_exposure_compensation]
    split
    · obtain ⟨l, hl, hsteps⟩ :=
        set_exposure_compensation_loop_steps cam exp
          (exp_direction exp
            ((call_current_settings cam st).2.settings.values
              .property_exposure_compensation))
          fuel (call_current_settings cam st).2
      exact fetch_then_loop_sent cam st _ l _ hl hsteps
    · exact hfetch _

/-- Witness for C8 (amended): the clamped camera at 280 asked for aperture 400
receives only `fnumber_increment` commands. -/
theorem step_commands_keep_direction_witness :
    (main.set_aperture (clamped_camera 10 140 6400) 12 (some 400) (initial_state 280)).2.sent
        = (initial_state 280).sent
            ++ new_exchanges (initial_state 280)
                (main.set_aperture (clamped_camera 10 140 6400) 12 (some 400)
                  (initial_state 280)).2
      ∧ ∀ e ∈ new_exchanges (initial_state 280)
          (main.set_aperture (clamped_camera 10 140 6400) 12 (some 400)
            (initial_state 280)).2,
        e.is_step = true → e = exchange.update_setting (.fnumber .fnumber_increment) :=
  (step_commands_keep_direction (clamped_camera 10 140 6400) id 12 (initial_state 280)
    400 0 0).1

/-! ## Theorems on the enumerated property commands and the recording commands -/

/-- C9: for each of the commands white_balance, film_simulation, flash and timer
and every value, if `is_known_property_value` rejects the value for the
property of the command, the handler makes no exchange at all (no
`update_setting`, no settings fetch) and leaves the state of `main` as it was. -/
theorem unknown_value_sends_nothing {σ : Type} (cam : camera σ)
    (is_known_property_value : property → Nat → Bool) (i : Int) (st : main_state σ) :
    (is_known_property_value .property_white_balance (to_uint32 i) = false →
        main.white_balance cam is_known_property_value (some i) st = st)
    ∧ (is_known_property_value .property_film_simulation (to_uint32 i) = false →
        main.film_simulation cam is_known_property_value (some i) st = st)
    ∧ (is_known_property_value .property_flash (to_uint32 i) = false →
        main.flash cam is_known_property_value (some i) st = st)
    ∧ (is_known_property_value .property_self_timer (to_uint32 i) = false →
        main.timer cam is_known_property_value (some i) st = st) := by
  refine ⟨?_, ?_, ?_, ?_⟩ <;> intro h
  · simp [main.white_balance, main.enumerated_property, h]
  · simp [main.film_simulation, main.enumerated_property, h]
  · simp [main.flash, main.enumerated_property, h]
  · simp [main.timer, main.enumerated_property, h]

/-- Witness for C9: with a table that knows only the values below 10, the value 99
is sent for none of the four properties. -/
theorem unknown_value_sends_nothing_witness :
    (main.white_balance (ignoring_camera .property_white_balance) (fun _ v => decide (v < 10))
        (some 99) (initial_state 2)).sent = []
      ∧ (main.film_simulation (ignoring_camera .property_white_balance)
          (fun _ v => decide (v < 10)) (some 99) (initial_state 2)).sent = []
      ∧ (main.flash (ignoring_camera .property_white_balance) (fun _ v => decide (v < 10))
          (some 99) (initial_state 2)).sent = []
      ∧ (main.timer (ignoring_camera .property_white_balance) (fun _ v => decide (v < 10))
          (some 99) (initial_state 2)).sent = [] := by
  have h := unknown_value_sends_nothing (ignoring_camera .property_white_balance)
    (fun _ v => decide (v < 10)) 99 (initial_state 2)
  refine ⟨?_, ?_, ?_, ?_⟩
  · rw [h.1 (by decide)]
    rfl
  · rw [h.2.1 (by decide)]
    rfl
  · rw [h.2.2.1 (by decide)]
    rfl
  · rw [h.2.2.2 (by decide)]
    rfl

/-- C10: `start_record` issued while a recording id is stored, and `stop_record`
issued while none is stored, make no exchange and leave the state of `main`,
the stored recording id included, as it was. -/
theorem record_commands_rejected {σ : Type} (cam : camera σ) (st : main_state σ) :
    (st.cur_record_id ≠ 0 → main.start_record cam st = st)
    ∧ (st.cur_record_id = 0 → main.stop_record cam st = st) := by
  constructor <;> intro h
  · simp [main.start_record, h]
  · simp [main.stop_record, h]

/-- Witness for C10: with recording 1234 stored a start is rejected, and with none
stored a stop is rejected. -/
theorem record_commands_rejected_witness :
    main.start_record (ignoring_camera .property_aperture)
        (⟨280, [], ⟨fun _ => 0⟩, 1234⟩ : main_state Nat)
      = (⟨280, [], ⟨fun _ => 0⟩, 1234⟩ : main_state Nat)
    ∧ main.stop_record (ignoring_camera .property_aperture) (initial_state 280)
      = initial_state 280 :=
  ⟨(record_commands_rejected (ignoring_camera .property_aperture)
      (⟨280, [], ⟨fun _ => 0⟩, 1234⟩ : main_state Nat)).1 (by decide),
   (record_commands_rejected (ignoring_camera .property_aperture) (initial_state 280)).2 rfl⟩

/-! ## Theorems on the byte arrays -/

theorem make_byte_array_u32_eq (x : Nat) :
    make_byte_array_u32 x
      = [x % 256, x / 256 % 256, x / 65536 % 256, x / 16777216 % 256] := by
  simp [make_byte_array_u32, Nat.shiftRight_eq_div_pow]

theorem make_byte_array_u16_eq (x : Nat) :
    make_byte_array_u16 x = [x % 256, x / 256 % 256] := by
  simp [make_byte_array_u16, Nat.shiftRight_eq_div_pow]

/-- C14: for every 32-bit `x`, `make_byte_array` returns four bytes
`b0, b1, b2, b3`, least significant first, with
`b0 + 256*b1 + 65536*b2 + 16777216*b3 = x`; for every 16-bit `x` the two-byte
overload returns bytes with `b0 + 256*b1 = x`; both are injective on their
range. -/
theorem make_byte_array_little_endian (x y : Nat) :
    (x < 4294967296 →
      ∃ b0 b1 b2 b3 : Nat, make_byte_array_u32 x = [b0, b1, b2, b3]
        ∧ b0 < 256 ∧ b1 < 256 ∧ b2 < 256 ∧ b3 < 256
        ∧ b0 + 256 * b1 + 65536 * b2 + 16777216 * b3 = x)
    ∧ (x < 65536 →
      ∃ b0 b1 : Nat, make_byte_array_u16 x = [b0, b1]
        ∧ b0 < 256 ∧ b1 < 256 ∧ b0 + 256 * b1 = x)
    ∧ (x < 4294967296 → y < 4294967296 →
        make_byte_array_u32 x = make_byte_array_u32 y → x = y)
    ∧ (x < 65536 → y < 65536 →
        make_byte_array_u16 x = make_byte_array_u16 y → x = y) := by
  refine ⟨?_, ?_, ?_, ?_⟩
  · intro hx
    refine ⟨x % 256, x / 256 % 256, x / 65536 % 256, x / 16777216 % 256,
      make_byte_array_u32_eq x, ?_, ?_, ?_, ?_, ?_⟩ <;> omega
  · intro hx
    refine ⟨x % 256, x / 256 % 256, make_byte_array_u16_eq x, ?_, ?_, ?_⟩ <;> omega
  · intro hx hy h
    rw [make_byte_array_u32_eq, make_byte_array_u32_eq] at h
    simp only [List.cons.injEq, and_true] at h
    omega
  · intro hx hy h
    rw [make_byte_array_u16_eq, make_byte_array_u16_eq] at h
    simp only [List.cons.injEq, and_true] at h
    omega

/-- Witness for C14: 0x12345678 is laid out as 78 56 34 12 and 0x1016 as 16 10. -/
theorem make_byte_array_little_endian_witness :
    (∃ b0 b1 b2 b3 : Nat, make_byte_array_u32 0x12345678 = [b0, b1, b2, b3]
        ∧ b0 < 256 ∧ b1 < 256 ∧ b2 < 256 ∧ b3 < 256
        ∧ b0 + 256 * b1 + 65536 * b2 + 16777216 * b3 = 0x12345678)
      ∧ (∃ b0 b1 : Nat, make_byte_array_u16 0x1016 = [b0, b1]
        ∧ b0 < 256 ∧ b1 < 256 ∧ b0 + 256 * b1 = 0x1016)
      ∧ make_byte_array_u32 0x12345678 = [0x78, 0x56, 0x34, 0x12]
      ∧ make_byte_array_u16 0x1016 = [0x16, 0x10] :=
  ⟨(make_byte_array_little_endian 0x12345678 0).1 (by decide),
   (make_byte_array_little_endian 0x1016 0).2.1 (by decide), by decide, by decide⟩

/-! ## Theorems on the recording commands in sequence -/

/-- One recording command keeps the open sessions seen at the camera interface
equal to the sessions that the stored id stands for. -/
theorem dispatch_record_sessions {σ : Type} (cam : camera σ) (c : record_command)
    (st : main_state (σ × List Nat)) (h : st.world.2 = stored_sessions st.cur_record_id) :
    (main.dispatch_record (session_spy cam) c st).world.2
      = stored_sessions (main.dispatch_record (session_spy cam) c st).cur_record_id := by
  cases c with
  | start_record =>
    simp only [main.dispatch_record, main.start_record]
    by_cases h0 : st.cur_record_id = 0
    · rw [h0] at h
      by_cases hr : (cam.start_record st.world.1).1 = 0
      · simp [h0, hr, h, session_spy, stored_sessions]
      · simp [h0, hr, h, session_spy, stored_sessions, call_current_settings]
    · simp [h0, h]
  | stop_record =>
    simp only [main.dispatch_record, main.stop_record]
    by_cases h0 : st.cur_record_id = 0
    · simp [h0, h]
    · have hw : st.world.2 = [st.cur_record_id] := by
        rw [h]
        simp [stored_sessions, h0]
      by_cases hr : (cam.stop_record st.cur_record_id st.world.1).1 = true
      · simp [h0, hr, hw, session_spy, stored_sessions, call_current_settings]
      · simp [h0, hr, hw, session_spy, stored_sessions]

theorem run_record_commands_sessions {σ : Type} (cam : camera σ) :
    ∀ (cmds : List record_command) (st : main_state (σ × List Nat)),
      st.world.2 = stored_sessions st.cur_record_id →
      (main.run_record_commands (session_spy cam) cmds st).world.2
        = stored_sessions (main.run_record_commands (session_spy cam) cmds st).cur_record_id := by
  intro cmds
  induction cmds with
  | nil =>
    intro st h
    exact h
  | cons c cs ih =>
    intro st h
    exact ih _ (dispatch_record_sessions cam c st h)

theorem stored_sessions_length (id : Nat) : (stored_sessions id).length ≤ 1 := by
  unfold stored_sessions
  split <;> simp

/-- C11: the stored recording id changes in two ways only. From the state without
a stored id, `start_record` makes one start exchange and stores the id it
returns (0, that is none, when it fails); with an id stored it changes nothing.
With an id stored, `stop_record` makes one stop exchange with the stored id,
and the id becomes 0 when the exchange succeeds and stays as it was when the
exchange fails; without a stored id it changes nothing. Over every sequence of
the two commands, the sessions open at the camera interface are the ones the
stored id stands for, so at most one session is open at any time. -/
theorem record_id_changes {σ : Type} (cam : camera σ) (s : main_state σ)
    (cmds : List record_command) (st : main_state (σ × List Nat)) :
    (s.cur_record_id = 0 →
      (main.start_record cam s).cur_record_id = (cam.start_record s.world).1
        ∧ (new_exchanges s (main.start_record cam s)).head? = some exchange.start_record
        ∧ main.stop_record cam s = s)
    ∧ (s.cur_record_id ≠ 0 →
      main.start_record cam s = s
        ∧ (new_exchanges s (main.stop_record cam s)).head?
            = some (exchange.stop_record s.cur_record_id)
        ∧ ((cam.stop_record s.cur_record_id s.world).1 = true →
            (main.stop_record cam s).cur_record_id = 0)
        ∧ ((cam.stop_record s.cur_record_id s.world).1 = false →
            (main.stop_record cam s).cur_record_id = s.cur_record_id))
    ∧ (st.world.2 = stored_sessions st.cur_record_id →
      (main.run_record_commands (session_spy cam) cmds st).world.2
          = stored_sessions
              (main.run_record_commands (session_spy cam) cmds st).cur_record_id
        ∧ (main.run_record_commands (session_spy cam) cmds st).world.2.length ≤ 1) := by
  refine ⟨?_, ?_, ?_⟩
  · intro h0
    refine ⟨?_, ?_, ?_⟩
    · by_cases hr : (cam.start_record s.world).1 = 0
      · simp [main.start_record, h0, hr]
      · simp [main.start_record, h0, hr, call_current_settings]
    · by_cases hr : (cam.start_record s.world).1 = 0
      · simp [main.start_record, h0, hr, new_exchanges]
      · simp [main.start_record, h0, hr, call_current_settings, new_exchanges]
    · simp [main.stop_record, h0]
  · intro h0
    refine ⟨?_, ?_, ?_, ?_⟩
    · simp [main.start_record, h0]
    · by_cases hr : (cam.stop_record s.cur_record_id s.world).1 = true
      · simp [main.stop_record, h0, hr, call_current_settings, new_exchanges]
      · simp [main.stop_record, h0, hr, new_exchanges]
    · intro hr
      simp [main.stop_record, h0, hr, call_current_settings]
    · intro hr
      simp [main.stop_record, h0, hr]
  · intro h
    have hinv := run_record_commands_sessions cam cmds st h
    exact ⟨hinv, by rw [hinv]; exact stored_sessions_length _⟩

/-- Witness for C11: the simulated camera answers a start with id 1234 and accepts
every stop. A start from the state without id stores 1234, a stop with 1234
stored resets the id, and after `stop, start, start` exactly the session 1234
is open. -/
theorem record_id_changes_witness :
    (main.start_record (ignoring_camera .property_aperture) (initial_state 280)).cur_record_id
        = 1234
      ∧ (main.stop_record (ignoring_camera .property_aperture)
          (⟨280, [], ⟨fun _ => 0⟩, 1234⟩ : main_state Nat)).cur_record_id = 0
      ∧ (main.run_record_commands (session_spy (ignoring_camera .property_aperture))
          [.stop_record, .start_record, .start_record]
          (⟨(280, []), [], ⟨fun _ => 0⟩, 0⟩ : main_state (Nat × List Nat))).world.2.length ≤ 1
      ∧ (main.run_record_commands (session_spy (ignoring_camera .property_aperture))
          [.stop_record, .start_record, .start_record]
          (⟨(280, []), [], ⟨fun _ => 0⟩, 0⟩ : main_state (Nat × List Nat))).world.2
          = [1234] :=
  ⟨((record_id_changes (ignoring_camera .property_aperture) (initial_state 280) []
      (⟨(280, []), [], ⟨fun _ => 0⟩, 0⟩ : main_state (Nat × List Nat))).1 rfl).1,
   ((record_id_changes (ignoring_camera .property_aperture)
      (⟨280, [], ⟨fun _ => 0⟩, 1234⟩ : main_state Nat) []
      (⟨(280, []), [], ⟨fun _ => 0⟩, 0⟩ : main_state (Nat × List Nat))).2.1
        (by decide)).2.2.1 rfl,
   ((record_id_changes (ignoring_camera .property_aperture) (initial_state 280)
      [.stop_record, .start_record, .start_record]
      (⟨(280, []), [], ⟨fun _ => 0⟩, 0⟩ : main_state (Nat × List Nat))).2.2 rfl).2,
   rfl⟩

/-! ## Theorems on the focus point -/

/-- C12 (the code at the failing input): for the line `focus_point 20 3`, whose
`x` lies outside the grid of 13 columns, the handler sends the focus-point
update with the point (20, 3), whether the members of the point hold an `int`
or a `uint8_t`; so it does for `focus_point -1 -1` with `int` members. The path
through `onMouse` sends nothing for the point (20, 3). -/
theorem focus_point_sends_outside_grid :
    (new_exchanges (initial_state 0)
        (main.focus_point (ignoring_camera .property_aperture) (fun i => i) (some (20, 3))
          (initial_state 0))).head?
        = some (exchange.update_setting (.focus ⟨20, 3⟩))
      ∧ (new_exchanges (initial_state 0)
          (main.focus_point (ignoring_camera .property_aperture) (fun i => i % 256)
            (some (20, 3)) (initial_state 0))).head?
          = some (exchange.update_setting (.focus ⟨20, 3⟩))
      ∧ (new_exchanges (initial_state 0)
          (main.focus_point (ignoring_camera .property_aperture) (fun i => i)
            (some (-1, -1)) (initial_state 0))).head?
          = some (exchange.update_setting (.focus ⟨-1, -1⟩))
      ∧ ¬ ((20 : Int) ≤ POINTS_X)
      ∧ new_exchanges (initial_state 0)
          (onMouse_point (ignoring_camera .property_aperture) ⟨20, 3⟩ (initial_state 0)) = [] := by
  refine ⟨rfl, rfl, rfl, by decide, rfl⟩

/-! ## Theorems on the order of fetches and step commands -/

theorem guarded_from_congr (good good1 : current_properties → Prop)
    (h : ∀ s, good s ↔ good1 s) (prev : Option exchange) (l : List exchange)
    (hg : guarded_from good prev l) : guarded_from good1 prev l := by
  have : good = good1 := funext (fun s => propext (h s))
  rw [← this]
  exact hg

/-- In a guarded list every step command has a good successful fetch right
before it. -/
theorem guarded_from_step (good : current_properties → Prop) :
    ∀ (pre post : List exchange) (prev : Option exchange) (e : exchange),
      guarded_from good prev (pre ++ e :: post) → e.is_step = true →
      ∃ s, good s ∧ ((pre = [] ∧ prev = some (exchange.current_settings true s))
        ∨ ∃ pre1, pre = pre1 ++ [exchange.current_settings true s]) := by
  intro pre
  induction pre with
  | nil =>
    intro post prev e hg he
    obtain ⟨s, hs, hgood⟩ := hg.1 he
    exact ⟨s, hgood, Or.inl ⟨rfl, hs⟩⟩
  | cons a pre ih =>
    intro post prev e hg he
    obtain ⟨s, hgood, h⟩ := ih post (some a) e hg.2.2 he
    refine ⟨s, hgood, Or.inr ?_⟩
    rcases h with ⟨hnil, ha⟩ | ⟨pre1, hpre⟩
    · refine ⟨[], ?_⟩
      rw [hnil, Option.some.inj ha]
      rfl
    · exact ⟨a :: pre1, by rw [hpre]; rfl⟩

/-- In a guarded list nothing follows a fetch that failed or is not good. -/
theorem guarded_from_fetch (good : current_properties → Prop) :
    ∀ (pre post : List exchange) (prev : Option exchange) (ok : Bool)
      (s : current_properties),
      guarded_from good prev (pre ++ exchange.current_settings ok s :: post) →
      ¬ (ok = true ∧ good s) → post = [] := by
  intro pre
  induction pre with
  | nil =>
    intro post prev ok s hg hbad
    cases post with
    | nil => rfl
    | cons x xs => exact absurd (hg.2.2.2.1 ok s rfl) hbad
  | cons a pre ih =>
    intro post prev ok s hg hbad
    exact ih post (some a) ok s hg.2.2 hbad

theorem steps_only_after_of_guarded (good : current_properties → Prop) (l : List exchange)
    (hg : guarded_from good none l) : steps_only_after good l := by
  constructor
  · intro pre post e hl he
    rw [hl] at hg
    obtain ⟨s, hgood, h⟩ := guarded_from_step good pre post none e hg he
    rcases h with ⟨_, hnone⟩ | ⟨pre1, hpre⟩
    · cases hnone
    · exact ⟨pre1, s, hpre, hgood⟩
  · intro pre post ok s hl hbad
    rw [hl] at hg
    exact guarded_from_fetch good pre post none ok s hg hbad

/-- The exchanges of a command that stops after its first fetch, or that makes no
exchange at all, are guarded. -/
theorem guarded_from_fetch_only (good : current_properties → Prop) (ok : Bool)
    (s : current_properties) :
    guarded_from good none [] ∧ guarded_from good none [exchange.current_settings ok s] := by
  refine ⟨trivial, ?_, ?_, trivial⟩
  · intro h
    cases h
  · intro ok1 s1 h
    cases h

/-- The exchanges of a command that enters its loop after a successful, good first
fetch are guarded when the exchanges of the loop are. -/
theorem guarded_from_enter (good : current_properties → Prop) (s : current_properties)
    (l : List exchange) (hl : guarded_from good (some (exchange.current_settings true s)) l) :
    guarded_from good none (exchange.current_settings true s :: l) := by
  refine ⟨?_, ?_, hl⟩
  · intro h
    cases h
  · intro ok1 s1 h
    cases h

/-- One loop iteration that ends the loop, after the step command or after the
fetch that follows it. -/
theorem guarded_from_last (good : current_properties → Prop) (s : current_properties)
    (hs : good s) (u : setting_update) (ok : Bool) (s1 : current_properties) :
    guarded_from good (some (exchange.current_settings true s)) [exchange.update_setting u]
      ∧ guarded_from good (some (exchange.current_settings true s))
          [exchange.update_setting u, exchange.current_settings ok s1] := by
  have h1 : (exchange.update_setting u).is_step = true →
      ∃ s0, some (exchange.current_settings true s)
          = some (exchange.current_settings true s0) ∧ good s0 :=
    fun _ => ⟨s, rfl, hs⟩
  have h2 : ∀ ok0 s0, some (exchange.current_settings true s)
      = some (exchange.current_settings ok0 s0) → ok0 = true ∧ good s0 := by
    intro ok0 s0 h
    cases h
    exact ⟨rfl, hs⟩
  refine ⟨⟨h1, h2, trivial⟩, h1, h2, ?_, ?_, trivial⟩
  · intro h
    cases h
  · intro ok0 s0 h
    cases h

/-- One loop iteration that continues: the step command, a successful fetch, and
the exchanges of the rest of the loop. -/
theorem guarded_from_continue (good : current_properties → Prop) (s : current_properties)
    (hs : good s) (u : setting_update) (s1 : current_properties) (l : List exchange)
    (hl : guarded_from good (some (exchange.current_settings true s1)) l) :
    guarded_from good (some (exchange.current_settings true s))
      (exchange.update_setting u :: exchange.current_settings true s1 :: l) := by
  refine ⟨fun _ => ⟨s, rfl, hs⟩, ?_, ?_, ?_, hl⟩
  · intro ok0 s0 h
    cases h
    exact ⟨rfl, hs⟩
  · intro h
    cases h
  · intro ok0 s0 h
    cases h

/-- The exchanges of the aperture loop are guarded: it sends a step command only
right after a successful fetch whose value differs from the target and asks
for the direction of the loop. -/
theorem set_aperture_loop_guarded {σ : Type} (cam : camera σ) (T : Nat)
    (dir : fnumber_update_direction) :
    ∀ (fuel : Nat) (st : main_state σ),
      (T ≠ st.settings.values .property_aperture
        ∧ dir = fnumber_direction T (st.settings.values .property_aperture)) →
      ∃ l : List exchange,
        (main.set_aperture_loop cam T dir fuel st).2.sent = st.sent ++ l
          ∧ guarded_from
              (fun s => T ≠ s.values .property_aperture
                ∧ dir = fnumber_direction T (s.values .property_aperture))
              (some (exchange.current_settings true st.settings)) l := by
  intro fuel
  induction fuel with
  | zero =>
    intro st _
    exact ⟨[], by simp [main.set_aperture_loop], trivial⟩
  | succ n ih =>
    intro st hst
    have hlast := guarded_from_last
      (fun s => T ≠ s.values .property_aperture
        ∧ dir = fnumber_direction T (s.values .property_aperture))
      st.settings hst (.fnumber dir)
    simp only [main.set_aperture_loop]
    split
    · exact ⟨[exchange.update_setting (.fnumber dir)], update_sent cam _ st,
        (hlast true st.settings).1⟩
    · split
      · rename_i hcont
        obtain ⟨l, hl, hg⟩ :=
          ih (call_current_settings cam (call_update_setting cam (.fnumber dir) st).2).2
            ⟨hcont.2.2.1, hcont.2.2.2⟩
        refine ⟨exchange.update_setting (.fnumber dir)
          :: exchange.current_settings true
              (call_current_settings cam (call_update_setting cam (.fnumber dir) st).2).2.settings
          :: l, ?_, guarded_from_continue _ st.settings hst _ _ l hg⟩
        rw [hl, fetch_sent, update_sent]
        have hok : (cam.current_settings (call_update_setting cam (.fnumber dir) st).2.settings
            (call_update_setting cam (.fnumber dir) st).2.world).1 = true := hcont.1
        rw [hok]
        simp only [List.append_assoc]
        rfl
      · refine ⟨[exchange.update_setting (.fnumber dir),
          exchange.current_settings
            (cam.current_settings (call_update_setting cam (.fnumber dir) st).2.settings
              (call_update_setting cam (.fnumber dir) st).2.world).1
            (cam.current_settings (call_update_setting cam (.fnumber dir) st).2.settings
              (call_update_setting cam (.fnumber dir) st).2.world).2.1], ?_,
          (hlast _ _).2⟩
        rw [fetch_sent, update_sent, List.append_assoc]
        rfl

/-- The exchanges of the shutter speed loop are guarded: it sends a step command only
right after a successful fetch whose value in microseconds differs from the target and asks
for the direction of the loop. -/
theorem set_shutter_speed_loop_guarded {σ : Type} (cam : camera σ)
    (ss_to_microsec : Nat → Nat) (T : ℚ) (dir : ss_update_direction) :
    ∀ (fuel : Nat) (st : main_state σ),
      (T ≠ (ss_to_microsec (st.settings.values .property_shutter_speed) : ℚ)
        ∧ dir = ss_direction T (ss_to_microsec (st.settings.values .property_shutter_speed))) →
      ∃ l : List exchange,
        (main.set_shutter_speed_loop cam ss_to_microsec T dir fuel st).2.sent = st.sent ++ l
          ∧ guarded_from
              (fun s => T ≠ (ss_to_microsec (s.values .property_shutter_speed) : ℚ)
                ∧ dir = ss_direction T (ss_to_microsec (s.values .property_shutter_speed)))
              (some (exchange.current_settings true st.settings)) l := by
  intro fuel
  induction fuel with
  | zero =>
    intro st _
    exact ⟨[], by simp [main.set_shutter_speed_loop], trivial⟩
  | succ n ih =>
    intro st hst
    have hlast := guarded_from_last
      (fun s => T ≠ (ss_to_microsec (s.values .property_shutter_speed) : ℚ)
        ∧ dir = ss_direction T (ss_to_microsec (s.values .property_shutter_speed)))
      st.settings hst (.ss dir)
    simp only [main.set_shutter_speed_loop]
    split
    · exact ⟨[exchange.update_setting (.ss dir)], update_sent cam _ st,
        (hlast true st.settings).1⟩
    · split
      · rename_i hcont
        obtain ⟨l, hl, hg⟩ :=
          ih (call_current_settings cam (call_update_setting cam (.ss dir) st).2).2
            ⟨hcont.2.2.1, hcont.2.2.2⟩
        refine ⟨exchange.update_setting (.ss dir)
          :: exchange.current_settings true
              (call_current_settings cam (call_update_setting cam (.ss dir) st).2).2.settings
          :: l, ?_, guarded_from_continue _ st.settings hst _ _ l hg⟩
        rw [hl, fetch_sent, update_sent]
        have hok : (cam.current_settings (call_update_setting cam (.ss dir) st).2.settings
            (call_update_setting cam (.ss dir) st).2.world).1 = true := hcont.1
        rw [hok]
        simp only [List.append_assoc]
        rfl
      · refine ⟨[exchange.update_setting (.ss dir),
          exchange.current_settings
            (cam.current_settings (call_update_setting cam (.ss dir) st).2.settings
              (call_update_setting cam (.ss dir) st).2.world).1
            (cam.current_settings (call_update_setting cam (.ss dir) st).2.settings
              (call_update_setting cam (.ss dir) st).2.world).2.1], ?_,
          (hlast _ _).2⟩
        rw [fetch_sent, update_sent, List.append_assoc]
        rfl


/-- The exchanges of the exposure compensation loop are guarded: it sends a step command only
right after a successful fetch whose value differs from the target and asks
for the direction of the loop. -/
theorem set_exposure_compensation_loop_guarded {σ : Type} (cam : camera σ) (T : Nat)
    (dir : exp_update_direction) :
    ∀ (fuel : Nat) (st : main_state σ),
      (T ≠ st.settings.values .property_exposure_compensation
        ∧ dir = exp_direction T (st.settings.values .property_exposure_compensation)) →
      ∃ l : List exchange,
        (main.set_exposure_compensation_loop cam T dir fuel st).2.sent = st.sent ++ l
          ∧ guarded_from
              (fun s => T ≠ s.values .property_exposure_compensation
                ∧ dir = exp_direction T (s.values .property_exposure_compensation))
              (some (exchange.current_settings true st.settings)) l := by
  intro fuel
  induction fuel with
  | zero =>
    intro st _
    exact ⟨[], by simp [main.set_exposure_compensation_loop], trivial⟩
  | succ n ih =>
    intro st hst
    have hlast := guarded_from_last
      (fun s => T ≠ s.values .property_exposure_compensation
        ∧ dir = exp_direction T (s.values .property_exposure_compensation))
      st.settings hst (.exp dir)
    simp only [main.set_exposure_compensation_loop]
    split
    · exact ⟨[exchange.update_setting (.exp dir)], update_sent cam _ st,
        (hlast true st.settings).1⟩
    · split
      · rename_i hcont
        obtain ⟨l, hl, hg⟩ :=
          ih (call_current_settings cam (call_update_setting cam (.exp dir) st).2).2
            ⟨hcont.2.2.1, hcont.2.2.2⟩
        refine ⟨exchange.update_setting (.exp dir)
          :: exchange.current_settings true
              (call_current_settings cam (call_update_setting cam (.exp dir) st).2).2.settings
          :: l, ?_, guarded_from_continue _ st.settings hst _ _ l hg⟩
        rw [hl, fetch_sent, update_sent]
        have hok : (cam.current_settings (call_update_setting cam (.exp dir) st).2.settings
            (call_update_setting cam (.exp dir) st).2.world).1 = true := hcont.1
        rw [hok]
        simp only [List.append_assoc]
        rfl
      · refine ⟨[exchange.update_setting (.exp dir),
          exchange.current_settings
            (cam.current_settings (call_update_setting cam (.exp dir) st).2.settings
              (call_update_setting cam (.exp dir) st).2.world).1
            (cam.current_settings (call_update_setting cam (.exp dir) st).2.settings
              (call_update_setting cam (.exp dir) st).2.world).2.1], ?_,
          (hlast _ _).2⟩
        rw [fetch_sent, update_sent, List.append_assoc]
        rfl


theorem fnumber_side_iff (T v0 v : Nat) :
    (T ≠ v ∧ fnumber_direction T v0 = fnumber_direction T v) ↔ (v ≠ T ∧ (T < v ↔ T < v0)) := by
  unfold fnumber_direction
  by_cases h1 : T < v <;> by_cases h2 : T < v0 <;> simp [h1, h2, ne_comm]

theorem exp_side_iff (T v0 v : Nat) :
    (T ≠ v ∧ exp_direction T v0 = exp_direction T v) ↔ (v ≠ T ∧ (T < v ↔ T < v0)) := by
  unfold exp_direction
  by_cases h1 : T < v <;> by_cases h2 : T < v0 <;> simp [h1, h2, ne_comm]

theorem ss_side_iff (T : ℚ) (m0 m : Nat) :
    (T ≠ (m : ℚ) ∧ ss_direction T m0 = ss_direction T m)
      ↔ ((m : ℚ) ≠ T ∧ (T < (m : ℚ) ↔ T < (m0 : ℚ))) := by
  unfold ss_direction
  by_cases h1 : T < (m : ℚ) <;> by_cases h2 : T < (m0 : ℚ) <;> simp [h1, h2, ne_comm]

/-- A command that enters its loop after a successful first fetch: its exchanges
are the fetch and then those of the loop. -/
theorem command_guarded {σ : Type} (cam : camera σ) (good : current_properties → Prop)
    (st st1 : main_state σ) (l : List exchange)
    (hsent : st1.sent = (call_current_settings cam st).2.sent ++ l)
    (hok : (call_current_settings cam st).1 = true)
    (hg : guarded_from good
      (some (exchange.current_settings true (call_current_settings cam st).2.settings)) l) :
    steps_only_after good (new_exchanges st st1) := by
  have hnew : new_exchanges st st1
      = exchange.current_settings true (call_current_settings cam st).2.settings :: l := by
    apply new_exchanges_of_append
    have hok1 : (cam.current_settings st.settings st.world).1 = true := hok
    rw [hsent, fetch_sent, hok1, List.append_assoc]
    rfl
  rw [hnew]
  exact steps_only_after_of_guarded good _ (guarded_from_enter good _ l hg)

/-- A command that makes no exchange, or only its first fetch. -/
theorem command_without_loop {σ : Type} (cam : camera σ) (good : current_properties → Prop)
    (st : main_state σ) :
    steps_only_after good (new_exchanges st st)
      ∧ steps_only_after good (new_exchanges st (call_current_settings cam st).2) := by
  rw [new_exchanges_self, new_exchanges_fetch]
  exact ⟨steps_only_after_of_guarded good _ (guarded_from_fetch_only good true st.settings).1,
    steps_only_after_of_guarded good _ (guarded_from_fetch_only good _ _).2⟩

/-- C13: in each set-to-target command, for every camera, every step command is
sent directly after a successful settings fetch whose value differs from the
target and lies on the same side of the target as the value of the first
fetch (for the shutter speed: values converted to microseconds); a fetch that
fails, or whose value equals the target or lies on the other side, is the last
exchange of the command, so no further step command is sent. -/
theorem steps_only_toward_target {σ : Type} (cam : camera σ)
    (ss_to_microsec : Nat → Nat) (fuel : Nat) (st : main_state σ)
    (aperture exp : Nat) (new_speed : ℚ) :
    steps_only_after
        (fun s => s.values .property_aperture ≠ aperture
          ∧ (aperture < s.values .property_aperture
              ↔ aperture < first_fetch_value cam st .property_aperture))
        (new_exchanges st (main.set_aperture cam fuel (some aperture) st).2)
    ∧ steps_only_after
        (fun s => (ss_to_microsec (s.values .property_shutter_speed) : ℚ) ≠ new_speed
          ∧ (new_speed < (ss_to_microsec (s.values .property_shutter_speed) : ℚ)
              ↔ new_speed
                  < (ss_to_microsec (first_fetch_value cam st .property_shutter_speed) : ℚ)))
        (new_exchanges st
          (main.set_shutter_speed cam ss_to_microsec fuel (some new_speed) st).2)
    ∧ steps_only_after
        (fun s => s.values .property_exposure_compensation ≠ exp
          ∧ (exp < s.values .property_exposure_compensation
              ↔ exp < first_fetch_value cam st .property_exposure_compensation))
        (new_exchanges st (main.set_exposure_compensation cam fuel (some exp) st).2) := by
  refine ⟨?_, ?_, ?_⟩
  · simp only [main.set_aperture]
    split
    · split
      · rename_i henter
        obtain ⟨l, hl, hg⟩ :=
          set_aperture_loop_guarded cam aperture
            (fnumber_direction aperture
              ((call_current_settings cam st).2.settings.values .property_aperture))
            fuel (call_current_settings cam st).2 ⟨henter.2.2, rfl⟩
        exact command_guarded cam _ st _ l hl henter.1
          (guarded_from_congr _ _
            (fun s => fnumber_side_iff aperture
              (first_fetch_value cam st .property_aperture) (s.values .property_aperture))
            _ l hg)
      · exact (command_without_loop cam _ st).2
    · exact (command_without_loop cam _ st).1
  · simp only [main.set_shutter_speed]
    split
    · rename_i henter
      obtain ⟨l, hl, hg⟩ :=
        set_shutter_speed_loop_guarded cam ss_to_microsec new_speed
          (ss_direction new_speed
            (ss_to_microsec
              ((call_current_settings cam st).2.settings.values .property_shutter_speed)))
          fuel (call_current_settings cam st).2 ⟨henter.2.2, rfl⟩
      exact command_guarded cam _ st _ l hl henter.1
        (guarded_from_congr _ _
          (fun s => ss_side_iff new_speed
            (ss_to_microsec (first_fetch_value cam st .property_shutter_speed))
            (ss_to_microsec (s.values .property_shutter_speed)))
          _ l hg)
    · exact (command_without_loop cam _ st).2
  · simp only [main.set_exposure_compensation]
    split
    · rename_i henter
      obtain ⟨l, hl, hg⟩ :=
        set_exposure_compensation_loop_guarded cam exp
          (exp_direction exp
            ((call_current_settings cam st).2.settings.values
              .property_exposure_compensation))
          fuel (call_current_settings cam st).2 ⟨henter.2, rfl⟩
      exact command_guarded cam _ st _ l hl henter.1
        (guarded_from_congr _ _
          (fun s => exp_side_iff exp
            (first_fetch_value cam st .property_exposure_compensation)
            (s.values .property_exposure_compensation))
          _ l hg)
    · exact (command_without_loop cam _ st).2

/-- C13 at a concrete run: the clamped camera at 280 asked for aperture 400; every
step command follows a fetch that reported a value below 400. -/
theorem steps_only_toward_target_witness :
    steps_only_after
      (fun s => s.values .property_aperture ≠ 400
        ∧ (400 < s.values .property_aperture
            ↔ 400 < first_fetch_value (clamped_camera 10 140 6400) (initial_state 280)
                .property_aperture))
      (new_exchanges (initial_state 280)
        (main.set_aperture (clamped_camera 10 140 6400) 12 (some 400) (initial_state 280)).2) :=
  (steps_only_toward_target (clamped_camera 10 140 6400) id 12 (initial_state 280)
    400 0 0).1

end fcwt
